import Mathlib

/-!
Device resolution and merging (`parse/devices.go`)

A shallow embedding of the three functions of `parse/devices.go`:

* `mergeDevices`       — merges the default device list with the user's devices,
* `getDevicesFromPath` — resolves one device mapping, walking directories,
* `deviceFromPath`     — inspects one path with `os.Lstat`.

Go strings are modelled by Lean `String`s, Go pointers to scalars by `Option`,
Go machine integers by `Nat`/`Int`, and Go multi-value returns by tuples.
The host file system is an explicit parameter (`FS`).
-/

namespace Parse

/-! ## Data model (types of the imported packages) -/

/-- The `configs.Device` record of libcontainer (the fields read by `mergeDevices`).
`Type` is a Go `rune` (an `int32`). -/
structure ConfigsDevice where
  Type_ : Int
  Path : String
  Major : Int
  Minor : Int
  Permissions : String
  FileMode : Nat
  Uid : Nat
  Gid : Nat
  deriving DecidableEq, Repr

/-- The `specs.Device` record; the pointer fields are options. -/
structure Device where
  Type_ : String
  Path : String
  Major : Int
  Minor : Int
  FileMode : Option Nat
  UID : Option Nat
  GID : Option Nat
  deriving DecidableEq, Repr

/-- The `specs.DeviceCgroup` record; a nil pointer is the wildcard. -/
structure DeviceCgroup where
  Allow : Bool
  Type_ : Option String
  Major : Option Int
  Minor : Option Int
  Access : Option String
  deriving DecidableEq, Repr

/-- Go conversion `string(r)` of a rune: the one-character string of the code
point, or U+FFFD when the value is not a valid code point. -/
def runeToString (r : Int) : String :=
  if 0 ≤ r ∧ r.toNat.isValidChar then String.singleton (Char.ofNat r.toNat)
  else String.singleton (Char.ofNat 0xFFFD)

/-! ## `mergeDevices` -/

/-- A Go `map[string]specs.Device` as an association list with unique keys. -/
abbrev PathMap := List (String × Device)

/-- Map assignment `m[k] = v`. -/
def PathMap.set : PathMap → String → Device → PathMap
  | [], k, v => [(k, v)]
  | (k', v') :: m, k, v => if k' = k then (k, v) :: m else (k', v') :: PathMap.set m k v

/-- The `defined` result of the map lookup `_, defined := m[k]`. -/
def PathMap.defined : PathMap → String → Bool
  | [], _ => false
  | (k', _) :: m, k => if k' = k then true else PathMap.defined m k

/-- First loop of `mergeDevices`: index the user devices by path. -/
def userPaths (userDevices : List Device) : PathMap :=
  userDevices.foldl (fun paths d => PathMap.set paths d.Path d) []

/-- The `specs.Device` literal built for a surviving default device. -/
def defaultToDevice (d : ConfigsDevice) : Device :=
  { Type_ := runeToString d.Type_
    Path := d.Path
    Major := d.Major
    Minor := d.Minor
    FileMode := some d.FileMode
    UID := some d.Uid
    GID := some d.Gid }

/-- The `specs.DeviceCgroup` literal built for a surviving default device. -/
def defaultToCgroup (d : ConfigsDevice) : DeviceCgroup :=
  { Allow := true
    Type_ := some (runeToString d.Type_)
    Major := some d.Major
    Minor := some d.Minor
    Access := some d.Permissions }

/-- Body of the second loop of `mergeDevices`, on the accumulators `devs`, `dc`. -/
def mergeStep (paths : PathMap) (hasTty : Bool)
    (acc : List Device × List DeviceCgroup) (d : ConfigsDevice) :
    List Device × List DeviceCgroup :=
  if d.Path = "/dev/tty" ∧ hasTty = false then acc
  else if PathMap.defined paths d.Path = false then
    (acc.1 ++ [defaultToDevice d], acc.2 ++ [defaultToCgroup d])
  else acc

/-- The function `mergeDevices`. -/
def mergeDevices (defaultDevices : List ConfigsDevice) (userDevices : List Device)
    (userDeviceCgroup : List DeviceCgroup) (hasTty : Bool) :
    List Device × List DeviceCgroup :=
  let paths := userPaths userDevices
  let acc := defaultDevices.foldl (mergeStep paths hasTty) ([], [])
  (acc.1 ++ userDevices, acc.2 ++ userDeviceCgroup)

/-- The defaults that survive both filters of `mergeDevices`, as the claim words it. -/
def survivors (defaultDevices : List ConfigsDevice) (userDevices : List Device)
    (hasTty : Bool) : List ConfigsDevice :=
  defaultDevices.filter (fun d =>
    decide (¬ (d.Path = "/dev/tty" ∧ hasTty = false) ∧ d.Path ∉ userDevices.map Device.Path))

/-! ## The host file system and the Go library functions used -/

/-- The `syscall.Stat_t` fields read by `deviceFromPath` (`Rdev` is a `uint64`,
`Uid` and `Gid` are `uint32`). -/
structure Stat_t where
  Rdev : Nat
  Uid : Nat
  Gid : Nat
  deriving DecidableEq, Repr

/-- An `os.FileInfo`: the `os.FileMode` bits and the result of `Sys()`, which is
`none` when it is not a `*syscall.Stat_t`. -/
structure FileInfo where
  mode : Nat
  sys : Option Stat_t
  deriving DecidableEq, Repr

/-- `os.ModeDir`. -/
def ModeDir : Nat := 2 ^ 31
/-- `os.ModeSymlink`. -/
def ModeSymlink : Nat := 2 ^ 27
/-- `os.ModeDevice`. -/
def ModeDevice : Nat := 2 ^ 26
/-- `os.ModeCharDevice`. -/
def ModeCharDevice : Nat := 2 ^ 21
/-- `os.ModePerm`. -/
def ModePerm : Nat := 0o777
/-- `syscall.S_IFCHR`. -/
def S_IFCHR : Nat := 0x2000
/-- `syscall.S_IFBLK`. -/
def S_IFBLK : Nat := 0x6000

/-- `FileInfo.IsDir()`. -/
def FileInfo.IsDir (fi : FileInfo) : Bool := decide (fi.mode &&& ModeDir ≠ 0)

/-- The state of the host file system as the code observes it: `lstat` and
`stat` by path (the error is the errno text) and the sorted names of a directory. -/
structure FS where
  lstat : String → Except String FileInfo
  stat : String → Except String FileInfo
  readDirNames : String → Except String (List String)

/-- Go `error` values that occur in this file. `errNotADevice` is the
distinguished `devices.ErrNotADevice`; it is equal only to itself. -/
inductive GoError where
  | pathError (op path errno : String)
  | errNotADevice
  | errorf (msg : String)
  deriving DecidableEq, Repr

/-- The method `Error()`. -/
def GoError.Error : GoError → String
  | .pathError op path errno => op ++ " " ++ path ++ ": " ++ errno
  | .errNotADevice => "not a device node"
  | .errorf msg => msg

/-- `os.Lstat`. -/
def os.Lstat (fs : FS) (name : String) : Except GoError FileInfo :=
  match fs.lstat name with
  | .ok fi => .ok fi
  | .error e => .error (.pathError "lstat" name e)

/-- `os.Stat`. -/
def os.Stat (fs : FS) (name : String) : Except GoError FileInfo :=
  match fs.stat name with
  | .ok fi => .ok fi
  | .error e => .error (.pathError "stat" name e)

/-- Conversion `int(x)` of a `uint64` on a 64-bit platform (two's complement). -/
def intOfUint64 (x : Nat) : Int :=
  if x % 2 ^ 64 < 2 ^ 63 then (x % 2 ^ 64 : Nat) else ((x % 2 ^ 64 : Nat) : Int) - 2 ^ 64

/-- Bitwise and of a signed 64-bit integer with a non-negative constant: the and
of the two's complement bit pattern with the mask. -/
def andMask (x : Int) (mask : Nat) : Nat := (x % 2 ^ 64).toNat &&& mask

/-- Modelled from the spec: `devices.Major` of libcontainer, which is not part of
this repository: `(devNumber >> 8) & 0xfff`. -/
def devices.Major (devNumber : Int) : Int := (andMask (devNumber >>> 8) 0xfff : Nat)

/-- Modelled from the spec: `devices.Minor` of libcontainer, which is not part of
this repository: `(devNumber & 0xff) | ((devNumber >> 12) & 0xfff00)`. -/
def devices.Minor (devNumber : Int) : Int :=
  (andMask devNumber 0xff ||| andMask (devNumber >>> 12) 0xfff00 : Nat)

/-- `strings.Index` on character lists: the first position at which `old` occurs. -/
def strings.indexChars (old : List Char) : List Char → Option Nat
  | [] => if old = [] then some 0 else none
  | c :: s =>
    if old.isPrefixOf (c :: s) then some 0
    else (strings.indexChars old s).map (fun j => j + 1)

/-- `strings.Replace` for a non-empty `old`: the first `n` occurrences, left to right. -/
def strings.replaceChars (old new : List Char) : Nat → List Char → List Char
  | 0, s => s
  | n + 1, s =>
    match strings.indexChars old s with
    | none => s
    | some j => s.take j ++ new ++ strings.replaceChars old new n (s.drop (j + old.length))

/-- `strings.Replace` for an empty `old`: `new` is inserted at the start and after
each character, `n` times at most. -/
def strings.insertChars (new : List Char) : Nat → List Char → List Char
  | 0, s => s
  | _ + 1, [] => new
  | n + 1, c :: s => new ++ c :: strings.insertChars new n s

/-- `strings.Replace(s, old, new, n)` for `n ≥ 0`. -/
def strings.Replace (s old new : String) (n : Nat) : String :=
  if old = new ∨ n = 0 then s
  else if old.data = [] then String.mk (strings.insertChars new.data n s.data)
  else String.mk (strings.replaceChars old.data new.data n s.data)

/-- Splits a path at every `/`. -/
def filepath.splitSlash : List Char → List (List Char)
  | [] => [[]]
  | c :: cs =>
    match filepath.splitSlash cs with
    | [] => [[]]
    | w :: ws => if c = '/' then [] :: w :: ws else (c :: w) :: ws

/-- One element of a path in `filepath.Clean`; `stack` holds the kept elements,
last first. -/
def filepath.cleanStep (rooted : Bool) (stack : List (List Char)) (comp : List Char) :
    List (List Char) :=
  if comp = [] ∨ comp = ['.'] then stack
  else if comp = ['.', '.'] then
    match stack with
    | top :: rest => if top = ['.', '.'] then comp :: stack else rest
    | [] => if rooted then [] else [comp]
  else comp :: stack

/-- `filepath.Clean` (Unix). -/
def filepath.Clean (p : String) : String :=
  let rooted := decide (p.data.head? = some '/')
  let comps := ((filepath.splitSlash p.data).foldl (filepath.cleanStep rooted) []).reverse
  let body := List.intercalate ['/'] comps
  if rooted then String.mk ('/' :: body)
  else if body = [] then "." else String.mk body

/-- `filepath.Join(dir, name)` (Unix). -/
def filepath.Join (dir name : String) : String :=
  if dir ≠ "" then filepath.Clean (dir ++ "/" ++ name)
  else if name ≠ "" then filepath.Clean name
  else ""

/-- The loop of `walk` over the names of a directory; `recur` is `walk` itself. -/
def filepath.walkNames (fs : FS) (recur : String → FileInfo → Option (List String))
    (path : String) : List String → Option (List String)
  | [] => some []
  | name :: names =>
    let filename := filepath.Join path name
    let here :=
      match fs.lstat filename with
      | .error _ => some [filename]
      | .ok fileInfo => recur filename fileInfo
    match here with
    | none => none
    | some v =>
      match filepath.walkNames fs recur path names with
      | none => none
      | some vs => some (v ++ vs)

/-- The recursion `walk` of `filepath.Walk`, for a callback that always returns
nil (as the one of `getDevicesFromPath` does): the paths on which the callback is
called, in order; symbolic links are not followed (`lstat`), and a directory that
cannot be read is reported once. `none` when the recursion depth exceeds `fuel`. -/
def filepath.walk (fs : FS) : Nat → String → FileInfo → Option (List String)
  | 0, _, _ => none
  | fuel + 1, path, info =>
    if info.IsDir = false then some [path]
    else
      match fs.readDirNames path with
      | .error _ => some [path]
      | .ok names =>
        match filepath.walkNames fs (filepath.walk fs fuel) path names with
        | none => none
        | some vs => some (path :: vs)

/-- `filepath.Walk(root, walkFn)` for a callback that always returns nil: the
paths on which the callback is called, in order. -/
def filepath.Walk (fs : FS) (fuel : Nat) (root : String) : Option (List String) :=
  match os.Lstat fs root with
  | .error _ => some [root]
  | .ok info => filepath.walk fs fuel root info

/-- The directory tree below `path` is finite: `walk` reaches only finitely many
entries from it. -/
inductive FiniteTree (fs : FS) : String → FileInfo → Prop where
  | leaf (path : String) (info : FileInfo) (h : info.IsDir = false) : FiniteTree fs path info
  | unreadable (path : String) (info : FileInfo) (e : String)
      (h : fs.readDirNames path = .error e) : FiniteTree fs path info
  | dir (path : String) (info : FileInfo) (names : List String)
      (h : fs.readDirNames path = .ok names)
      (hsub : ∀ name ∈ names, ∀ fi, fs.lstat (filepath.Join path name) = .ok fi →
        FiniteTree fs (filepath.Join path name) fi) : FiniteTree fs path info

/-- The tree walked from `root` is finite. -/
def FiniteFrom (fs : FS) (root : String) : Prop :=
  ∀ info, fs.lstat root = .ok info → FiniteTree fs root info

/-! ## `deviceFromPath` and `getDevicesFromPath` -/

/-- The function `deviceFromPath`. The Go result `(nil, nil, err)` is
`.error err`; `(dev, dc, nil)` is `.ok (dev, dc)`. -/
def deviceFromPath (fs : FS) (path permissions : String) :
    Except GoError (Device × DeviceCgroup) :=
  match os.Lstat fs path with
  | .error err => .error err
  | .ok fileInfo =>
    let mode := fileInfo.mode
    let perm := mode &&& ModePerm
    if mode &&& ModeDevice = 0 then .error .errNotADevice
    else
      let (fileModePermissionBits, devType) : Nat × Int :=
        if mode &&& ModeCharDevice ≠ 0 then (perm ||| S_IFCHR, 99) else (perm ||| S_IFBLK, 98)
      match fileInfo.sys with
      | none => .error (.errorf ("cannot determine the device number for device " ++ path))
      | some statt =>
        let devNumber := intOfUint64 statt.Rdev
        let major := devices.Major devNumber
        let minor := devices.Minor devNumber
        let t := runeToString devType
        .ok ({ Type_ := t, Path := path, Major := major, Minor := minor,
               FileMode := some fileModePermissionBits,
               UID := some statt.Uid, GID := some statt.Gid },
             { Allow := true, Type_ := some t, Major := some major, Minor := some minor,
               Access := some permissions })

/-- The `containertypes.DeviceMapping` record. -/
structure DeviceMapping where
  PathOnHost : String
  PathInContainer : String
  CgroupPermissions : String
  deriving DecidableEq, Repr

/-- The closure passed to `filepath.Walk`, on the captured `devs` and `dc`. -/
def walkFn (fs : FS) (m : DeviceMapping) (acc : List Device × List DeviceCgroup)
    (dpath : String) : List Device × List DeviceCgroup :=
  match deviceFromPath fs dpath m.CgroupPermissions with
  | .error _ => acc
  | .ok (childDevice, childDeviceCgroup) =>
    (acc.1 ++ [{ childDevice with
                 Path := strings.Replace dpath m.PathOnHost m.PathInContainer 1 }],
     acc.2 ++ [childDeviceCgroup])

/-- The message of the error returned when no device was found. -/
def mappingError (m : DeviceMapping) (err : GoError) : GoError :=
  .errorf ("Gathering device information while adding custom device (" ++ m.PathOnHost ++
    ") failed: " ++ err.Error)

/-- The function `getDevicesFromPath`: `(devs, dc, err)`. `none` when the
directory walk exceeds `fuel`. -/
def getDevicesFromPath (fs : FS) (fuel : Nat) (m : DeviceMapping) :
    Option (List Device × List DeviceCgroup × Option GoError) :=
  match deviceFromPath fs m.PathOnHost m.CgroupPermissions with
  | .ok (device, deviceCgroup) =>
    some ([{ device with Path := m.PathInContainer }], [deviceCgroup], none)
  | .error err =>
    let walked : Option (List Device × List DeviceCgroup) :=
      if err = .errNotADevice then
        match os.Stat fs m.PathOnHost with
        | .ok src =>
          if src.IsDir then
            (filepath.Walk fs fuel m.PathOnHost).map
              (fun visited => visited.foldl (walkFn fs m) ([], []))
          else some ([], [])
        | .error _ => some ([], [])
      else some ([], [])
    walked.map (fun acc =>
      if acc.1.length > 0 then (acc.1, acc.2, none)
      else (acc.1, acc.2, some (mappingError m err)))

/-- What the walk closure adds for the entry `dpath`: nothing when its inspection
fails, else the inspected device with its path rewritten, and its rule. -/
def resolveEntry (fs : FS) (m : DeviceMapping) (dpath : String) :
    Option (Device × DeviceCgroup) :=
  match deviceFromPath fs dpath m.CgroupPermissions with
  | .error _ => none
  | .ok (childDevice, childDeviceCgroup) =>
    some ({ childDevice with
            Path := strings.Replace dpath m.PathOnHost m.PathInContainer 1 },
          childDeviceCgroup)

/-- The entry at `path` is a device node whose metadata carries the raw device
number. -/
def isDeviceNode (fs : FS) (path : String) : Bool :=
  match fs.lstat path with
  | .error _ => false
  | .ok fi => decide (fi.mode &&& ModeDevice ≠ 0) && fi.sys.isSome

/-- The encoding of a device number that the specification pairs with
`devices.Major` and `devices.Minor`, in its words:
`(major << 8) | (minor & 0xff) | ((minor & 0xfff00) << 12)`, on 64-bit integers. -/
def encodeDev (major minor : Int) : Nat :=
  (((major % 2 ^ 64).toNat <<< 8) ||| andMask minor 0xff |||
    (andMask minor 0xfff00 <<< 12)) % 2 ^ 64

/-- The entry `p` lies in the directory tree under `dir`, as the directory
listings give it: `p` is an entry of `dir`, or it lies below an entry of `dir`
that is itself a directory. Symbolic links below `dir` are not followed. -/
inductive Below (fs : FS) : String → String → Prop where
  | entry (dir name : String) (names : List String)
      (h : fs.readDirNames dir = .ok names) (hn : name ∈ names) :
      Below fs dir (filepath.Join dir name)
  | deeper (dir name : String) (names : List String) (fi : FileInfo) (p : String)
      (h : fs.readDirNames dir = .ok names) (hn : name ∈ names)
      (hl : fs.lstat (filepath.Join dir name) = .ok fi) (hd : fi.IsDir = true)
      (hp : Below fs (filepath.Join dir name) p) : Below fs dir p

/-- The rule `c` names the type, major and minor of the device `d`. -/
def ruleFor (d : Device) (c : DeviceCgroup) : Prop :=
  c.Type_ = some d.Type_ ∧ c.Major = some d.Major ∧ c.Minor = some d.Minor

/-! ## Example inputs -/

def exNull : ConfigsDevice :=
  { Type_ := 99, Path := "/dev/null", Major := 1, Minor := 3, Permissions := "rwm",
    FileMode := 0o666, Uid := 0, Gid := 0 }

def exTty : ConfigsDevice :=
  { Type_ := 99, Path := "/dev/tty", Major := 5, Minor := 0, Permissions := "rwm",
    FileMode := 0o666, Uid := 0, Gid := 0 }

/-- A user device at the path of the default `/dev/null`. -/
def exUserNull : Device :=
  { Type_ := "c", Path := "/dev/null", Major := 1, Minor := 5, FileMode := none,
    UID := none, GID := none }

/-- A rule for `exUserNull`. -/
def exUserNullRule : DeviceCgroup :=
  { Allow := true, Type_ := some "c", Major := some 1, Minor := some 5, Access := some "r" }

/-- A block device node 8:0. -/
def exSdaInfo : FileInfo :=
  { mode := ModeDevice ||| 0o660, sys := some { Rdev := 0x800, Uid := 0, Gid := 6 } }

/-- A character device node 116:`minor`. -/
def exSndInfo (minor : Nat) : FileInfo :=
  { mode := ModeDevice ||| ModeCharDevice ||| 0o660,
    sys := some { Rdev := 0x7400 + minor, Uid := 0, Gid := 29 } }

/-- A directory. -/
def exDirInfo : FileInfo :=
  { mode := ModeDir ||| 0o755, sys := some { Rdev := 0, Uid := 0, Gid := 0 } }

/-- A regular file. -/
def exFileInfo : FileInfo :=
  { mode := 0o644, sys := some { Rdev := 0, Uid := 0, Gid := 0 } }

/-- A small host: `/dev/sda`, and the directory `/dev/snd` holding a device, a
regular file and a sub-directory with one more device. -/
def exFS : FS :=
  { lstat := fun p =>
      if p = "/dev/sda" then .ok exSdaInfo
      else if p = "/dev/snd" then .ok exDirInfo
      else if p = "/dev/snd/controlC0" then .ok (exSndInfo 0)
      else if p = "/dev/snd/readme" then .ok exFileInfo
      else if p = "/dev/snd/sub" then .ok exDirInfo
      else if p = "/dev/snd/sub/pcm" then .ok (exSndInfo 24)
      else if p = "/etc" then .ok exDirInfo
      else if p = "/etc/passwd" then .ok exFileInfo
      else .error "no such file or directory"
    stat := fun p =>
      if p = "/dev/sda" then .ok exSdaInfo
      else if p = "/dev/snd" then .ok exDirInfo
      else if p = "/dev/snd/controlC0" then .ok (exSndInfo 0)
      else if p = "/dev/snd/readme" then .ok exFileInfo
      else if p = "/dev/snd/sub" then .ok exDirInfo
      else if p = "/dev/snd/sub/pcm" then .ok (exSndInfo 24)
      else if p = "/etc" then .ok exDirInfo
      else if p = "/etc/passwd" then .ok exFileInfo
      else .error "no such file or directory"
    readDirNames := fun p =>
      if p = "/dev/snd" then .ok ["controlC0", "readme", "sub"]
      else if p = "/dev/snd/sub" then .ok ["pcm"]
      else if p = "/etc" then .ok ["passwd"]
      else .error "not a directory" }

/-- A host where the path of the mapped directory occurs again below it. -/
def exNestedFS : FS :=
  { lstat := fun p =>
      if p = "/d" then .ok exDirInfo
      else if p = "/d/d" then .ok exDirInfo
      else if p = "/d/d/null" then .ok (exSndInfo 3)
      else .error "no such file or directory"
    stat := fun p =>
      if p = "/d" then .ok exDirInfo
      else if p = "/d/d" then .ok exDirInfo
      else if p = "/d/d/null" then .ok (exSndInfo 3)
      else .error "no such file or directory"
    readDirNames := fun p =>
      if p = "/d" then .ok ["d"]
      else if p = "/d/d" then .ok ["null"]
      else .error "not a directory" }

/-- The mapping of the directory `/d` to `/c`. -/
def exNestedMapping : DeviceMapping :=
  { PathOnHost := "/d", PathInContainer := "/c", CgroupPermissions := "r" }

/-- The mapping of the directory `/etc`, which holds no device. -/
def exEtcMapping : DeviceMapping :=
  { PathOnHost := "/etc", PathInContainer := "/x", CgroupPermissions := "r" }

/-- A symbolic link. -/
def exLinkInfo : FileInfo :=
  { mode := ModeSymlink ||| 0o777, sys := some { Rdev := 0, Uid := 0, Gid := 0 } }

/-- A host with the directory `/x/real`, holding two device nodes, and the
symbolic link `/x/lnkdir` to it. -/
def exLinkFS : FS :=
  { lstat := fun p =>
      if p = "/x/lnkdir" then .ok exLinkInfo
      else if p = "/x/real" then .ok exDirInfo
      else if p = "/x/real/a" then .ok (exSndInfo 1)
      else if p = "/x/real/b" then .ok (exSndInfo 2)
      else if p = "/x/lnkdir/a" then .ok (exSndInfo 1)
      else if p = "/x/lnkdir/b" then .ok (exSndInfo 2)
      else .error "no such file or directory"
    stat := fun p =>
      if p = "/x/lnkdir" then .ok exDirInfo
      else if p = "/x/real" then .ok exDirInfo
      else if p = "/x/real/a" then .ok (exSndInfo 1)
      else if p = "/x/real/b" then .ok (exSndInfo 2)
      else if p = "/x/lnkdir/a" then .ok (exSndInfo 1)
      else if p = "/x/lnkdir/b" then .ok (exSndInfo 2)
      else .error "no such file or directory"
    readDirNames := fun p =>
      if p = "/x/lnkdir" then .ok ["a", "b"]
      else if p = "/x/real" then .ok ["a", "b"]
      else .error "not a directory" }

/-- The mapping of the symbolic link `/x/lnkdir`. -/
def exLinkMapping : DeviceMapping :=
  { PathOnHost := "/x/lnkdir", PathInContainer := "/dev/in", CgroupPermissions := "rw" }

/-- The mapping of the directory `/x/real` itself. -/
def exRealMapping : DeviceMapping :=
  { PathOnHost := "/x/real", PathInContainer := "/dev/in", CgroupPermissions := "rw" }

/-- The mapping of a path that does not exist. -/
def exMissingMapping : DeviceMapping :=
  { PathOnHost := "/nope", PathInContainer := "/x", CgroupPermissions := "r" }

/-- The mapping of a regular file. -/
def exFileMapping : DeviceMapping :=
  { PathOnHost := "/etc/passwd", PathInContainer := "/x", CgroupPermissions := "r" }

/-- The mapping of `/dev/sda` to `/dev/xvda`. -/
def exSdaMapping : DeviceMapping :=
  { PathOnHost := "/dev/sda", PathInContainer := "/dev/xvda", CgroupPermissions := "rwm" }

/-- The mapping of the directory `/dev/snd` to `/dev/sound`. -/
def exSndMapping : DeviceMapping :=
  { PathOnHost := "/dev/snd", PathInContainer := "/dev/sound", CgroupPermissions := "rw" }

/-! ## Lemmas on `mergeDevices` -/

theorem PathMap.defined_set (m : PathMap) (k k' : String) (v : Device) :
    PathMap.defined (PathMap.set m k v) k' = true ↔ k = k' ∨ PathMap.defined m k' = true := by
  induction m with
  | nil => simp [PathMap.set, PathMap.defined]
  | cons kv m ih =>
    obtain ⟨a, b⟩ := kv
    by_cases h : a = k
    · subst h
      by_cases h' : a = k' <;> simp [PathMap.set, PathMap.defined, h']
    · by_cases h' : a = k'
      · subst h'
        simp [PathMap.set, PathMap.defined, h]
      · simp [PathMap.set, PathMap.defined, h, h', ih]

theorem defined_foldl_set (us : List Device) (m : PathMap) (p : String) :
    PathMap.defined (us.foldl (fun paths d => PathMap.set paths d.Path d) m) p = true ↔
      p ∈ us.map Device.Path ∨ PathMap.defined m p = true := by
  induction us generalizing m with
  | nil => simp
  | cons u us ih =>
    simp only [List.foldl_cons, List.map_cons, List.mem_cons]
    rw [ih, PathMap.defined_set]
    constructor
    · rintro (h | h | h)
      · exact Or.inl (Or.inr h)
      · exact Or.inl (Or.inl h.symm)
      · exact Or.inr h
    · rintro ((h | h) | h)
      · exact Or.inr (Or.inl h.symm)
      · exact Or.inl h
      · exact Or.inr (Or.inr h)

/-- A path is a key of the index built by the first loop exactly when some user
device has it. -/
theorem defined_userPaths (us : List Device) (p : String) :
    PathMap.defined (userPaths us) p = true ↔ p ∈ us.map Device.Path := by
  unfold userPaths
  rw [defined_foldl_set]
  simp [PathMap.defined]

/-- The second loop appends the conversions of the surviving defaults, in order. -/
theorem foldl_mergeStep (us : List Device) (hasTty : Bool) (ds : List ConfigsDevice)
    (acc : List Device × List DeviceCgroup) :
    ds.foldl (mergeStep (userPaths us) hasTty) acc =
      (acc.1 ++ (survivors ds us hasTty).map defaultToDevice,
       acc.2 ++ (survivors ds us hasTty).map defaultToCgroup) := by
  induction ds generalizing acc with
  | nil => simp [survivors]
  | cons d ds ih =>
    rw [List.foldl_cons, ih]
    by_cases htty : d.Path = "/dev/tty" ∧ hasTty = false
    · have hs : survivors (d :: ds) us hasTty = survivors ds us hasTty := by
        simp [survivors, List.filter_cons, htty]
      rw [hs]
      simp [mergeStep, htty]
    · by_cases hdef : PathMap.defined (userPaths us) d.Path = true
      · have hmem : d.Path ∈ us.map Device.Path := (defined_userPaths us d.Path).1 hdef
        have hs : survivors (d :: ds) us hasTty = survivors ds us hasTty := by
          simp only [survivors, List.filter_cons]
          rw [if_neg]
          simp only [decide_eq_true_eq]
          exact fun h => h.2 hmem
        rw [hs]
        simp [mergeStep, htty, hdef]
      · have hmem : d.Path ∉ us.map Device.Path :=
          fun h => hdef ((defined_userPaths us d.Path).2 h)
        have hs : survivors (d :: ds) us hasTty = d :: survivors ds us hasTty := by
          simp only [survivors, List.filter_cons]
          rw [if_pos]
          simp only [decide_eq_true_eq]
          exact ⟨htty, hmem⟩
        rw [hs]
        have hdef' : PathMap.defined (userPaths us) d.Path = false := by
          simpa using hdef
        simp [mergeStep, htty, hdef']

/-- Closed form of `mergeDevices`. -/
theorem mergeDevices_eq (ds : List ConfigsDevice) (us : List Device)
    (rs : List DeviceCgroup) (hasTty : Bool) :
    mergeDevices ds us rs hasTty =
      ((survivors ds us hasTty).map defaultToDevice ++ us,
       (survivors ds us hasTty).map defaultToCgroup ++ rs) := by
  simp [mergeDevices, foldl_mergeStep]

theorem survivors_path_not_user (ds : List ConfigsDevice) (us : List Device)
    (hasTty : Bool) (d : ConfigsDevice) (h : d ∈ survivors ds us hasTty) :
    d.Path ∉ us.map Device.Path := by
  simp only [survivors, List.mem_filter, decide_eq_true_eq] at h
  exact h.2.2

/-! ## Claims on `mergeDevices` -/

/-- C1: `mergeDevices` returns the conversions of the surviving defaults, in their
original order, followed by all user devices, and the rules of the surviving
defaults followed by all user rules; the survivors are exactly the defaults that
are neither `/dev/tty` without a tty nor at the path of a user device. -/
theorem mergeDevices_filtered_defaults_then_user (defaultDevices : List ConfigsDevice)
    (userDevices : List Device) (userDeviceCgroup : List DeviceCgroup) (hasTty : Bool) :
    mergeDevices defaultDevices userDevices userDeviceCgroup hasTty =
      ((survivors defaultDevices userDevices hasTty).map defaultToDevice ++ userDevices,
       (survivors defaultDevices userDevices hasTty).map defaultToCgroup ++ userDeviceCgroup) ∧
    List.Sublist (survivors defaultDevices userDevices hasTty) defaultDevices ∧
    (∀ d, d ∈ survivors defaultDevices userDevices hasTty ↔
      (d ∈ defaultDevices ∧ ¬ (d.Path = "/dev/tty" ∧ hasTty = false) ∧
        d.Path ∉ userDevices.map Device.Path)) := by
  refine ⟨mergeDevices_eq _ _ _ _, ?_, ?_⟩
  · exact List.filter_sublist _
  · intro d
    simp only [survivors, List.mem_filter, decide_eq_true_eq]

theorem mergeDevices_filtered_defaults_then_user_witness :
    mergeDevices [exNull, exTty] [exUserNull] [defaultToCgroup exNull] false =
      ([exUserNull], [defaultToCgroup exNull]) ∧
    mergeDevices [exTty, exNull] [] [] true =
      ([defaultToDevice exTty, defaultToDevice exNull],
       [defaultToCgroup exTty, defaultToCgroup exNull]) :=
  ⟨(mergeDevices_filtered_defaults_then_user [exNull, exTty] [exUserNull]
      [defaultToCgroup exNull] false).1,
   (mergeDevices_filtered_defaults_then_user [exTty, exNull] [] [] true).1⟩

/-- C2: for a path `p` of some user device, the returned devices at `p` are
exactly the user devices at `p`, in order: each of them is a user device and
their number is the number of user devices at `p`. -/
theorem mergeDevices_user_overrides_default (defaultDevices : List ConfigsDevice)
    (userDevices : List Device) (userDeviceCgroup : List DeviceCgroup) (hasTty : Bool)
    (p : String) (hp : p ∈ userDevices.map Device.Path) :
    (mergeDevices defaultDevices userDevices userDeviceCgroup hasTty).1.filter
        (fun d => decide (d.Path = p)) =
      userDevices.filter (fun d => decide (d.Path = p)) ∧
    (∀ d ∈ (mergeDevices defaultDevices userDevices userDeviceCgroup hasTty).1,
      d.Path = p → d ∈ userDevices) ∧
    ((mergeDevices defaultDevices userDevices userDeviceCgroup hasTty).1.filter
        (fun d => decide (d.Path = p))).length =
      (userDevices.filter (fun d => decide (d.Path = p))).length := by
  have hnone : ((survivors defaultDevices userDevices hasTty).map defaultToDevice).filter
      (fun d => decide (d.Path = p)) = [] := by
    rw [List.filter_eq_nil_iff]
    intro d hd
    obtain ⟨c, hc, rfl⟩ := List.mem_map.1 hd
    have := survivors_path_not_user _ _ _ c hc
    simp only [decide_eq_true_eq]
    intro h
    apply this
    have hpath : (defaultToDevice c).Path = c.Path := rfl
    rw [← hpath, h]
    exact hp
  have hfilter : (mergeDevices defaultDevices userDevices userDeviceCgroup hasTty).1.filter
        (fun d => decide (d.Path = p)) =
      userDevices.filter (fun d => decide (d.Path = p)) := by
    rw [mergeDevices_eq]
    simp only [List.filter_append, hnone, List.nil_append]
  refine ⟨hfilter, ?_, by rw [hfilter]⟩
  intro d hd hdp
  have hmem : d ∈ (mergeDevices defaultDevices userDevices userDeviceCgroup hasTty).1.filter
      (fun d => decide (d.Path = p)) := by
    rw [List.mem_filter]
    exact ⟨hd, by simpa using hdp⟩
  rw [hfilter] at hmem
  exact (List.mem_filter.1 hmem).1

theorem mergeDevices_user_overrides_default_witness :
    "/dev/null" ∈ [exUserNull].map Device.Path ∧
    (mergeDevices [exNull, exTty] [exUserNull] [] true).1.filter
        (fun d => decide (d.Path = "/dev/null")) = [exUserNull] :=
  ⟨by decide,
   (mergeDevices_user_overrides_default [exNull, exTty] [exUserNull] [] true "/dev/null"
      (by decide)).1⟩

theorem survivors_nil_false (ds : List ConfigsDevice) :
    survivors ds [] false = ds.filter (fun d => decide (d.Path ≠ "/dev/tty")) := by
  simp [survivors]

theorem survivors_nil_true (ds : List ConfigsDevice) : survivors ds [] true = ds := by
  simp [survivors]

/-- C3: without user entries and without a tty, `mergeDevices` returns the
conversion of the defaults whose path is not `/dev/tty`, in order, with type,
path, major and minor unchanged; no returned device is at `/dev/tty`; and the
defaults `/dev/null` c 1:3, `/dev/tty` c 5:0 give the single device `/dev/null`. -/
theorem mergeDevices_without_tty_excludes_tty (defaultDevices : List ConfigsDevice) :
    mergeDevices defaultDevices [] [] false =
      ((defaultDevices.filter (fun d => decide (d.Path ≠ "/dev/tty"))).map defaultToDevice,
       (defaultDevices.filter (fun d => decide (d.Path ≠ "/dev/tty"))).map defaultToCgroup) ∧
    (∀ d ∈ defaultDevices, d.Path ≠ "/dev/tty" →
      defaultToDevice d ∈ (mergeDevices defaultDevices [] [] false).1) ∧
    (∀ d ∈ (mergeDevices defaultDevices [] [] false).1, d.Path ≠ "/dev/tty") ∧
    (∀ d : ConfigsDevice, (defaultToDevice d).Type_ = runeToString d.Type_ ∧
      (defaultToDevice d).Path = d.Path ∧ (defaultToDevice d).Major = d.Major ∧
      (defaultToDevice d).Minor = d.Minor) ∧
    (mergeDevices [exNull, exTty] [] [] false).1 =
      [{ Type_ := "c", Path := "/dev/null", Major := 1, Minor := 3, FileMode := some 0o666,
         UID := some 0, GID := some 0 }] := by
  have heq : mergeDevices defaultDevices [] [] false =
      ((defaultDevices.filter (fun d => decide (d.Path ≠ "/dev/tty"))).map defaultToDevice,
       (defaultDevices.filter (fun d => decide (d.Path ≠ "/dev/tty"))).map defaultToCgroup) := by
    rw [mergeDevices_eq, survivors_nil_false]
    simp
  refine ⟨heq, ?_, ?_, fun d => ⟨rfl, rfl, rfl, rfl⟩, by decide⟩
  · intro d hd hne
    rw [heq]
    exact List.mem_map.2 ⟨d, List.mem_filter.2 ⟨hd, by simpa using hne⟩, rfl⟩
  · intro d hd
    rw [heq] at hd
    obtain ⟨c, hc, rfl⟩ := List.mem_map.1 hd
    have := (List.mem_filter.1 hc).2
    simpa using this

theorem mergeDevices_without_tty_excludes_tty_witness :
    defaultToDevice exNull ∈ (mergeDevices [exNull, exTty] [] [] false).1 ∧
    (mergeDevices [exNull, exTty] [] [] false).2 = [defaultToCgroup exNull] :=
  ⟨(mergeDevices_without_tty_excludes_tty [exNull, exTty]).2.1 exNull (by decide) (by decide),
   by decide⟩

/-- C4: without user entries and with a tty, `mergeDevices` returns one device and
one rule per default, the i-th being the conversion of the i-th default (same
type, path, major, minor, file mode, uid and gid), `/dev/tty` included. -/
theorem mergeDevices_with_tty_keeps_all (defaultDevices : List ConfigsDevice) :
    mergeDevices defaultDevices [] [] true =
      (defaultDevices.map defaultToDevice, defaultDevices.map defaultToCgroup) ∧
    (mergeDevices defaultDevices [] [] true).1.length = defaultDevices.length ∧
    (mergeDevices defaultDevices [] [] true).2.length = defaultDevices.length ∧
    (∀ i : Nat, (mergeDevices defaultDevices [] [] true).1[i]? =
      (defaultDevices[i]?).map defaultToDevice) ∧
    (∀ i : Nat, (mergeDevices defaultDevices [] [] true).2[i]? =
      (defaultDevices[i]?).map defaultToCgroup) ∧
    (∀ d : ConfigsDevice, (defaultToDevice d).Type_ = runeToString d.Type_ ∧
      (defaultToDevice d).Path = d.Path ∧ (defaultToDevice d).Major = d.Major ∧
      (defaultToDevice d).Minor = d.Minor ∧ (defaultToDevice d).FileMode = some d.FileMode ∧
      (defaultToDevice d).UID = some d.Uid ∧ (defaultToDevice d).GID = some d.Gid) := by
  have heq : mergeDevices defaultDevices [] [] true =
      (defaultDevices.map defaultToDevice, defaultDevices.map defaultToCgroup) := by
    rw [mergeDevices_eq, survivors_nil_true]
    simp
  refine ⟨heq, ?_, ?_, ?_, ?_, fun d => ⟨rfl, rfl, rfl, rfl, rfl, rfl, rfl⟩⟩
  · rw [heq]; simp
  · rw [heq]; simp
  · intro i; rw [heq]; simp
  · intro i; rw [heq]; simp

theorem mergeDevices_with_tty_keeps_all_witness :
    mergeDevices [exNull, exTty] [] [] true =
      ([defaultToDevice exNull, defaultToDevice exTty],
       [defaultToCgroup exNull, defaultToCgroup exTty]) :=
  (mergeDevices_with_tty_keeps_all [exNull, exTty]).1

/-! ## Lemmas on `deviceFromPath` -/

theorem runeToString_c : runeToString 99 = "c" := by decide

theorem runeToString_b : runeToString 98 = "b" := by decide

theorem os_Lstat_ok (fs : FS) (path : String) (fi : FileInfo) (h : fs.lstat path = .ok fi) :
    os.Lstat fs path = .ok fi := by
  simp [os.Lstat, h]

theorem os_Lstat_error (fs : FS) (path e : String) (h : fs.lstat path = .error e) :
    os.Lstat fs path = .error (.pathError "lstat" path e) := by
  simp [os.Lstat, h]

/-- The result of `deviceFromPath` on a path that is not a device node. -/
theorem deviceFromPath_of_not_device (fs : FS) (path permissions : String) (fi : FileInfo)
    (h : fs.lstat path = .ok fi) (hmode : fi.mode &&& ModeDevice = 0) :
    deviceFromPath fs path permissions = .error .errNotADevice := by
  simp [deviceFromPath, os_Lstat_ok fs path fi h, hmode]

/-- The result of `deviceFromPath` on a device node with a raw device number. -/
theorem deviceFromPath_of_device (fs : FS) (path permissions : String) (fi : FileInfo)
    (st : Stat_t) (h : fs.lstat path = .ok fi) (hmode : fi.mode &&& ModeDevice ≠ 0)
    (hsys : fi.sys = some st) :
    deviceFromPath fs path permissions =
      .ok ({ Type_ := if fi.mode &&& ModeCharDevice ≠ 0 then "c" else "b"
             Path := path
             Major := devices.Major (intOfUint64 st.Rdev)
             Minor := devices.Minor (intOfUint64 st.Rdev)
             FileMode := some (if fi.mode &&& ModeCharDevice ≠ 0
               then (fi.mode &&& ModePerm) ||| S_IFCHR else (fi.mode &&& ModePerm) ||| S_IFBLK)
             UID := some st.Uid
             GID := some st.Gid },
           { Allow := true
             Type_ := some (if fi.mode &&& ModeCharDevice ≠ 0 then "c" else "b")
             Major := some (devices.Major (intOfUint64 st.Rdev))
             Minor := some (devices.Minor (intOfUint64 st.Rdev))
             Access := some permissions }) := by
  by_cases hc : fi.mode &&& ModeCharDevice = 0
  · simp [deviceFromPath, os_Lstat_ok fs path fi h, hmode, hsys, hc, runeToString_b]
  · simp [deviceFromPath, os_Lstat_ok fs path fi h, hmode, hsys, hc, runeToString_c]

/-- A successful `deviceFromPath` comes from a device node with a raw device number. -/
theorem deviceFromPath_ok_inv (fs : FS) (path permissions : String) (dev : Device)
    (dc : DeviceCgroup) (h : deviceFromPath fs path permissions = .ok (dev, dc)) :
    ∃ fi st, fs.lstat path = .ok fi ∧ fi.mode &&& ModeDevice ≠ 0 ∧ fi.sys = some st := by
  cases hl : fs.lstat path with
  | error e => simp [deviceFromPath, os_Lstat_error fs path e hl] at h
  | ok fi =>
    by_cases hmode : fi.mode &&& ModeDevice = 0
    · rw [deviceFromPath_of_not_device fs path permissions fi hl hmode] at h
      cases h
    · cases hsys : fi.sys with
      | none => simp [deviceFromPath, os_Lstat_ok fs path fi hl, hmode, hsys] at h
      | some st => exact ⟨fi, st, rfl, hmode, hsys⟩

/-! ## Termination of the directory walk -/

/-- The loop over the names succeeds with a callback that succeeds more often. -/
theorem walkNames_mono (fs : FS) (r r' : String → FileInfo → Option (List String))
    (hr : ∀ p i v, r p i = some v → r' p i = some v) (path : String) (names : List String)
    (vs : List String) (h : filepath.walkNames fs r path names = some vs) :
    filepath.walkNames fs r' path names = some vs := by
  induction names generalizing vs with
  | nil => simpa [filepath.walkNames] using h
  | cons name names ih =>
    simp only [filepath.walkNames] at h ⊢
    cases hl : fs.lstat (filepath.Join path name) with
    | error e =>
      simp only [hl] at h ⊢
      cases ht : filepath.walkNames fs r path names with
      | none => simp [ht] at h
      | some ws =>
        rw [ih ws ht]
        simpa [ht] using h
    | ok fi =>
      simp only [hl] at h ⊢
      cases hh : r (filepath.Join path name) fi with
      | none => simp [hh] at h
      | some v =>
        rw [hr _ _ _ hh]
        cases ht : filepath.walkNames fs r path names with
        | none => simp [hh, ht] at h
        | some ws =>
          rw [ih ws ht]
          simpa [hh, ht] using h

/-- More fuel does not change the result of `walk`. -/
theorem walk_succ (fs : FS) (n : Nat) (path : String) (info : FileInfo) (v : List String)
    (h : filepath.walk fs n path info = some v) :
    filepath.walk fs (n + 1) path info = some v := by
  induction n generalizing path info v with
  | zero => simp [filepath.walk] at h
  | succ n ih =>
    rw [filepath.walk] at h ⊢
    by_cases hd : info.IsDir = false
    · simpa [hd] using h
    · simp only [hd, if_false] at h ⊢
      cases hn : fs.readDirNames path with
      | error e => simpa [hn] using h
      | ok names =>
        simp only [hn] at h ⊢
        cases hw : filepath.walkNames fs (filepath.walk fs n) path names with
        | none => simp [hw] at h
        | some vs =>
          rw [walkNames_mono fs _ _ (fun p i v hv => ih p i v hv) path names vs hw]
          simpa [hw] using h

theorem walk_le (fs : FS) (n k : Nat) (hnk : n ≤ k) (path : String) (info : FileInfo)
    (v : List String) (h : filepath.walk fs n path info = some v) :
    filepath.walk fs k path info = some v := by
  induction hnk with
  | refl => exact h
  | step _ ih => exact walk_succ fs _ path info v ih

/-- The loop over the names terminates when the walk of every entry does. -/
theorem walkNames_terminates (fs : FS) (path : String) (names : List String)
    (h : ∀ name ∈ names, ∀ fi, fs.lstat (filepath.Join path name) = .ok fi →
      ∃ n v, filepath.walk fs n (filepath.Join path name) fi = some v) :
    ∃ n vs, filepath.walkNames fs (filepath.walk fs n) path names = some vs := by
  induction names with
  | nil => exact ⟨0, [], rfl⟩
  | cons name names ih =>
    obtain ⟨n₂, ws, hws⟩ := ih (fun nm hnm fi hfi => h nm (List.mem_cons_of_mem _ hnm) fi hfi)
    cases hl : fs.lstat (filepath.Join path name) with
    | error e =>
      refine ⟨n₂, filepath.Join path name :: ws, ?_⟩
      simp [filepath.walkNames, hl, hws]
    | ok fi =>
      obtain ⟨n₁, v, hv⟩ := h name (List.mem_cons_self _ _) fi hl
      refine ⟨max n₁ n₂, v ++ ws, ?_⟩
      have h1 : filepath.walk fs (max n₁ n₂) (filepath.Join path name) fi = some v :=
        walk_le fs n₁ _ (le_max_left _ _) _ _ _ hv
      have h2 : filepath.walkNames fs (filepath.walk fs (max n₁ n₂)) path names = some ws :=
        walkNames_mono fs _ _
          (fun p i v hv => walk_le fs n₂ _ (le_max_right _ _) p i v hv) path names ws hws
      simp [filepath.walkNames, hl, h1, h2]

/-- On a finite tree `walk` returns with enough fuel. -/
theorem walk_terminates (fs : FS) (path : String) (info : FileInfo)
    (h : FiniteTree fs path info) : ∃ n v, filepath.walk fs n path info = some v := by
  induction h with
  | leaf path info hd => exact ⟨1, [path], by simp [filepath.walk, hd]⟩
  | unreadable path info e he =>
    refine ⟨1, [path], ?_⟩
    by_cases hd : info.IsDir = false <;> simp [filepath.walk, hd, he]
  | dir path info names hn _ ih =>
    by_cases hd : info.IsDir = false
    · exact ⟨1, [path], by simp [filepath.walk, hd]⟩
    · obtain ⟨n, vs, hvs⟩ := walkNames_terminates fs path names ih
      exact ⟨n + 1, path :: vs, by simp [filepath.walk, hd, hn, hvs]⟩

/-- On a finite tree `filepath.Walk` returns the same visit list for every
sufficient fuel. -/
theorem Walk_terminates (fs : FS) (root : String) (h : FiniteFrom fs root) :
    ∃ n v, ∀ k, n ≤ k → filepath.Walk fs k root = some v := by
  cases hl : fs.lstat root with
  | error e =>
    exact ⟨0, [root], fun k _ => by simp [filepath.Walk, os_Lstat_error fs root e hl]⟩
  | ok info =>
    obtain ⟨n, v, hv⟩ := walk_terminates fs root info (h info hl)
    refine ⟨n, v, fun k hk => ?_⟩
    simp only [filepath.Walk, os_Lstat_ok fs root info hl]
    exact walk_le fs n k hk root info v hv

theorem walkNames_some_inv (fs : FS) (r : String → FileInfo → Option (List String))
    (path : String) (names : List String) (vs : List String)
    (h : filepath.walkNames fs r path names = some vs) :
    ∀ name ∈ names, ∀ fi, fs.lstat (filepath.Join path name) = .ok fi →
      ∃ v, r (filepath.Join path name) fi = some v := by
  induction names generalizing vs with
  | nil => intro name hname; cases hname
  | cons nm names ih =>
    intro name hname fi hfi
    simp only [filepath.walkNames] at h
    cases hh : (match fs.lstat (filepath.Join path nm) with
        | .error _ => some [filepath.Join path nm]
        | .ok fileInfo => r (filepath.Join path nm) fileInfo) with
    | none => simp [hh] at h
    | some v =>
      cases ht : filepath.walkNames fs r path names with
      | none => simp [hh, ht] at h
      | some ws =>
        rcases List.mem_cons.1 hname with rfl | hmem
        · rw [hfi] at hh
          exact ⟨v, hh⟩
        · exact ih ws ht name hmem fi hfi

/-- A walk that returns has walked a finite tree. -/
theorem finiteTree_of_walk (fs : FS) (n : Nat) (path : String) (info : FileInfo)
    (v : List String) (h : filepath.walk fs n path info = some v) :
    FiniteTree fs path info := by
  induction n generalizing path info v with
  | zero => simp [filepath.walk] at h
  | succ n ih =>
    by_cases hd : info.IsDir = false
    · exact FiniteTree.leaf path info hd
    · cases hn : fs.readDirNames path with
      | error e => exact FiniteTree.unreadable path info e hn
      | ok names =>
        rw [filepath.walk] at h
        simp only [hd, if_false, hn] at h
        cases hw : filepath.walkNames fs (filepath.walk fs n) path names with
        | none => simp [hw] at h
        | some vs =>
          refine FiniteTree.dir path info names hn (fun name hname fi hfi => ?_)
          obtain ⟨w, hw'⟩ := walkNames_some_inv fs _ path names vs hw name hname fi hfi
          exact ih _ _ w hw'

theorem finiteFrom_of_Walk (fs : FS) (n : Nat) (root : String) (v : List String)
    (h : filepath.Walk fs n root = some v) : FiniteFrom fs root := by
  intro info hl
  simp only [filepath.Walk, os_Lstat_ok fs root info hl] at h
  exact finiteTree_of_walk fs n root info v h

/-! ## Lemmas on `getDevicesFromPath` -/

theorem walkFn_eq (fs : FS) (m : DeviceMapping) (acc : List Device × List DeviceCgroup)
    (dpath : String) :
    walkFn fs m acc dpath =
      match resolveEntry fs m dpath with
      | none => acc
      | some e => (acc.1 ++ [e.1], acc.2 ++ [e.2]) := by
  unfold walkFn resolveEntry
  cases deviceFromPath fs dpath m.CgroupPermissions with
  | error e => rfl
  | ok r => rfl

/-- The walk appends, in visit order, what each visited entry contributes. -/
theorem foldl_walkFn (fs : FS) (m : DeviceMapping) (visited : List String)
    (acc : List Device × List DeviceCgroup) :
    visited.foldl (walkFn fs m) acc =
      (acc.1 ++ (visited.filterMap (resolveEntry fs m)).map Prod.fst,
       acc.2 ++ (visited.filterMap (resolveEntry fs m)).map Prod.snd) := by
  induction visited generalizing acc with
  | nil => simp
  | cons p ps ih =>
    rw [List.foldl_cons, ih, walkFn_eq]
    cases hr : resolveEntry fs m p with
    | none => simp [List.filterMap_cons, hr]
    | some e => simp [List.filterMap_cons, hr]

theorem isDeviceNode_iff (fs : FS) (path : String) :
    isDeviceNode fs path = true ↔
      ∃ fi st, fs.lstat path = .ok fi ∧ fi.mode &&& ModeDevice ≠ 0 ∧ fi.sys = some st := by
  unfold isDeviceNode
  cases hl : fs.lstat path with
  | error e => simp
  | ok fi =>
    cases hs : fi.sys with
    | none => simp [hs]
    | some st => simp [hs]

/-- Inspection succeeds exactly on device nodes with a raw device number. -/
theorem deviceFromPath_ok_iff (fs : FS) (path permissions : String) :
    (∃ r, deviceFromPath fs path permissions = .ok r) ↔ isDeviceNode fs path = true := by
  rw [isDeviceNode_iff]
  constructor
  · rintro ⟨⟨dev, dc⟩, h⟩
    exact deviceFromPath_ok_inv fs path permissions dev dc h
  · rintro ⟨fi, st, hl, hm, hs⟩
    exact ⟨_, deviceFromPath_of_device fs path permissions fi st hl hm hs⟩

theorem resolveEntry_eq_none_iff (fs : FS) (m : DeviceMapping) (dpath : String) :
    resolveEntry fs m dpath = none ↔ isDeviceNode fs dpath = false := by
  rw [← Bool.not_eq_true, ← deviceFromPath_ok_iff fs dpath m.CgroupPermissions]
  unfold resolveEntry
  cases h : deviceFromPath fs dpath m.CgroupPermissions with
  | error e => simp
  | ok r => simp

/-- The contributions of the visited entries are those of the visited device
nodes, one for each, in visit order. -/
theorem filterMap_resolveEntry (fs : FS) (m : DeviceMapping) (visited : List String) :
    List.Forall₂
      (fun p e => ∃ cd cdc, deviceFromPath fs p m.CgroupPermissions = .ok (cd, cdc) ∧
        e = ({ cd with Path := strings.Replace p m.PathOnHost m.PathInContainer 1 }, cdc))
      (visited.filter (isDeviceNode fs)) (visited.filterMap (resolveEntry fs m)) := by
  induction visited with
  | nil => simp
  | cons p ps ih =>
    cases hr : resolveEntry fs m p with
    | none =>
      have hnd : isDeviceNode fs p = false := (resolveEntry_eq_none_iff fs m p).1 hr
      simpa [List.filter_cons, List.filterMap_cons, hr, hnd] using ih
    | some e =>
      have hd : isDeviceNode fs p = true := by
        by_contra hcon
        have := (resolveEntry_eq_none_iff fs m p).2 (by simpa using hcon)
        rw [this] at hr
        cases hr
      simp only [List.filter_cons, hd, if_true, List.filterMap_cons, hr]
      refine List.Forall₂.cons ?_ ih
      unfold resolveEntry at hr
      cases hdev : deviceFromPath fs p m.CgroupPermissions with
      | error err => simp [hdev] at hr
      | ok r =>
        obtain ⟨cd, cdc⟩ := r
        simp only [hdev, Option.some.injEq] at hr
        exact ⟨cd, cdc, rfl, hr.symm⟩

/-- The single-device branch of `getDevicesFromPath`. -/
theorem getDevicesFromPath_of_ok (fs : FS) (fuel : Nat) (m : DeviceMapping) (dev : Device)
    (dc : DeviceCgroup)
    (h : deviceFromPath fs m.PathOnHost m.CgroupPermissions = .ok (dev, dc)) :
    getDevicesFromPath fs fuel m =
      some ([{ dev with Path := m.PathInContainer }], [dc], none) := by
  simp [getDevicesFromPath, h]

/-- The directory branch of `getDevicesFromPath`. -/
theorem getDevicesFromPath_of_walk (fs : FS) (fuel : Nat) (m : DeviceMapping)
    (src : FileInfo) (visited : List String)
    (h : deviceFromPath fs m.PathOnHost m.CgroupPermissions = .error .errNotADevice)
    (hs : fs.stat m.PathOnHost = .ok src) (hd : src.IsDir = true)
    (hw : filepath.Walk fs fuel m.PathOnHost = some visited) :
    getDevicesFromPath fs fuel m =
      some ((visited.filterMap (resolveEntry fs m)).map Prod.fst,
            (visited.filterMap (resolveEntry fs m)).map Prod.snd,
            if 0 < (visited.filterMap (resolveEntry fs m)).length then none
            else some (mappingError m .errNotADevice)) := by
  simp only [getDevicesFromPath, h, os.Stat, hs, hd, hw, if_true, Option.map_some',
    foldl_walkFn, List.nil_append, List.length_map]
  split <;> rfl

/-- The branches of `getDevicesFromPath` without a directory walk. -/
theorem getDevicesFromPath_of_no_walk (fs : FS) (fuel : Nat) (m : DeviceMapping)
    (err : GoError) (h : deviceFromPath fs m.PathOnHost m.CgroupPermissions = .error err)
    (hno : err ≠ .errNotADevice ∨ ¬ ∃ src, fs.stat m.PathOnHost = .ok src ∧ src.IsDir = true) :
    getDevicesFromPath fs fuel m = some ([], [], some (mappingError m err)) := by
  by_cases he : err = .errNotADevice
  · have hno' : ¬ ∃ src, fs.stat m.PathOnHost = .ok src ∧ src.IsDir = true := by
      rcases hno with h1 | h2
      · exact absurd he h1
      · exact h2
    cases hs : fs.stat m.PathOnHost with
    | error e => simp [getDevicesFromPath, h, he, os.Stat, hs]
    | ok src =>
      have hd : src.IsDir = false := by
        cases hdir : src.IsDir with
        | false => rfl
        | true => exact absurd ⟨src, hs, hdir⟩ hno'
      subst he
      simp [getDevicesFromPath, h, os.Stat, hs, hd]
  · simp [getDevicesFromPath, h, he]

/-! ## Lemmas on `strings.Replace` -/

theorem indexChars_leading (old suffix : List Char) :
    strings.indexChars old (old ++ suffix) = some 0 := by
  cases h : old ++ suffix with
  | nil =>
    have : old = [] := (List.append_eq_nil.1 h).1
    simp [strings.indexChars, this]
  | cons c s =>
    have hp : old.isPrefixOf (c :: s) = true := by
      rw [← h, List.isPrefixOf_iff_prefix]
      exact List.prefix_append old suffix
    simp [strings.indexChars, hp]

theorem insertChars_one (new s : List Char) : strings.insertChars new 1 s = new ++ s := by
  cases s with
  | nil => simp [strings.insertChars]
  | cons c s => simp [strings.insertChars]

/-- Replacing the first occurrence of a prefix by `new` substitutes that prefix. -/
theorem Replace_leading (old new suffix : String) :
    strings.Replace (old ++ suffix) old new 1 = new ++ suffix := by
  unfold strings.Replace
  by_cases h : old = new
  · simp [h]
  · simp only [h, false_or, one_ne_zero, if_false]
    by_cases he : old.data = []
    · have hold : old = "" := String.ext he
      subst hold
      simp only [if_true]
      apply String.ext
      simp [insertChars_one, String.data_append]
    · simp only [he, if_false]
      apply String.ext
      simp [strings.replaceChars, String.data_append, indexChars_leading]

/-! ## Claims on `getDevicesFromPath` and `deviceFromPath` -/

/-- C5: when `PathOnHost` is itself a device node, `getDevicesFromPath` returns no
error, exactly one device and exactly one rule; the device has the path
`PathInContainer` and every other field as `deviceFromPath` returned it for the
host path. -/
theorem getDevicesFromPath_single_device (fs : FS) (fuel : Nat) (m : DeviceMapping)
    (dev : Device) (dc : DeviceCgroup)
    (h : deviceFromPath fs m.PathOnHost m.CgroupPermissions = .ok (dev, dc)) :
    ∃ d, getDevicesFromPath fs fuel m = some ([d], [dc], none) ∧
      d.Path = m.PathInContainer ∧ d.Type_ = dev.Type_ ∧ d.Major = dev.Major ∧
      d.Minor = dev.Minor ∧ d.FileMode = dev.FileMode ∧ d.UID = dev.UID ∧ d.GID = dev.GID :=
  ⟨{ dev with Path := m.PathInContainer }, getDevicesFromPath_of_ok fs fuel m dev dc h,
    rfl, rfl, rfl, rfl, rfl, rfl, rfl⟩

theorem getDevicesFromPath_single_device_witness :
    deviceFromPath exFS exSdaMapping.PathOnHost exSdaMapping.CgroupPermissions =
      .ok ({ Type_ := "b", Path := "/dev/sda", Major := 8, Minor := 0,
             FileMode := some 0o60660, UID := some 0, GID := some 6 },
           { Allow := true, Type_ := some "b", Major := some 8, Minor := some 0,
             Access := some "rwm" }) ∧
    (∃ d, getDevicesFromPath exFS 0 exSdaMapping =
        some ([d], [{ Allow := true, Type_ := some "b", Major := some 8, Minor := some 0,
                      Access := some "rwm" }], none) ∧
      d.Path = "/dev/xvda" ∧ d.Type_ = "b" ∧ d.Major = 8 ∧ d.Minor = 0 ∧
      d.FileMode = some 0o60660 ∧ d.UID = some 0 ∧ d.GID = some 6) :=
  ⟨rfl, getDevicesFromPath_single_device exFS 0 exSdaMapping _ _ rfl⟩

/-- The directory branch, on the entries the walk visits: when `lstat` shows no
device node at `PathOnHost`, `os.Stat` shows a directory and the tree is finite,
the walk returns its visit list for every sufficient fuel; if that list holds
N ≥ 1 device nodes, `getDevicesFromPath` succeeds with exactly N devices and N
rules, one per visited device node in visit order, and every other visited entry
contributes nothing. -/
theorem getDevicesFromPath_directory (fs : FS) (m : DeviceMapping) (info src : FileInfo)
    (hl : fs.lstat m.PathOnHost = .ok info) (hnd : info.mode &&& ModeDevice = 0)
    (hs : fs.stat m.PathOnHost = .ok src) (hd : src.IsDir = true)
    (hfin : FiniteFrom fs m.PathOnHost) :
    ∃ fuel₀ visited, ∀ fuel, fuel₀ ≤ fuel →
      filepath.Walk fs fuel m.PathOnHost = some visited ∧
      (1 ≤ (visited.filter (isDeviceNode fs)).length →
        ∃ found, getDevicesFromPath fs fuel m =
            some (found.map Prod.fst, found.map Prod.snd, none) ∧
          found.length = (visited.filter (isDeviceNode fs)).length ∧
          List.Forall₂
            (fun p e => ∃ cd cdc, deviceFromPath fs p m.CgroupPermissions = .ok (cd, cdc) ∧
              e = ({ cd with Path := strings.Replace p m.PathOnHost m.PathInContainer 1 },
                   cdc))
            (visited.filter (isDeviceNode fs)) found ∧
          (∀ p ∈ visited, isDeviceNode fs p = false → resolveEntry fs m p = none)) := by
  obtain ⟨n, visited, hW⟩ := Walk_terminates fs m.PathOnHost hfin
  refine ⟨n, visited, fun fuel hfuel => ⟨hW fuel hfuel, fun hN => ?_⟩⟩
  have hnot := deviceFromPath_of_not_device fs m.PathOnHost m.CgroupPermissions info hl hnd
  have hF := filterMap_resolveEntry fs m visited
  have hlen : (visited.filterMap (resolveEntry fs m)).length =
      (visited.filter (isDeviceNode fs)).length := hF.length_eq.symm
  refine ⟨visited.filterMap (resolveEntry fs m), ?_, hlen, hF, ?_⟩
  · rw [getDevicesFromPath_of_walk fs fuel m src visited hnot hs hd (hW fuel hfuel)]
    have hpos : 0 < (visited.filterMap (resolveEntry fs m)).length := by omega
    simp [hpos]
  · intro p _ hp
    exact (resolveEntry_eq_none_iff fs m p).2 hp

theorem getDevicesFromPath_directory_witness :
    (∃ fuel₀ visited, ∀ fuel, fuel₀ ≤ fuel →
      filepath.Walk exFS fuel exSndMapping.PathOnHost = some visited ∧
      (1 ≤ (visited.filter (isDeviceNode exFS)).length →
        ∃ found, getDevicesFromPath exFS fuel exSndMapping =
            some (found.map Prod.fst, found.map Prod.snd, none) ∧
          found.length = (visited.filter (isDeviceNode exFS)).length ∧
          List.Forall₂
            (fun p e => ∃ cd cdc,
              deviceFromPath exFS p exSndMapping.CgroupPermissions = .ok (cd, cdc) ∧
              e = ({ cd with Path := strings.Replace p "/dev/snd" "/dev/sound" 1 }, cdc))
            (visited.filter (isDeviceNode exFS)) found ∧
          (∀ p ∈ visited, isDeviceNode exFS p = false →
            resolveEntry exFS exSndMapping p = none))) ∧
    filepath.Walk exFS 3 "/dev/snd" =
      some ["/dev/snd", "/dev/snd/controlC0", "/dev/snd/readme", "/dev/snd/sub",
            "/dev/snd/sub/pcm"] ∧
    (getDevicesFromPath exFS 3 exSndMapping).map (fun r => (r.1.map Device.Path, r.2.2)) =
      some (["/dev/sound/controlC0", "/dev/sound/sub/pcm"], none) :=
  ⟨getDevicesFromPath_directory exFS exSndMapping exDirInfo exDirInfo rfl (by decide) rfl
      (by decide) (finiteFrom_of_Walk exFS 3 "/dev/snd" _ (by decide : _ = some
        ["/dev/snd", "/dev/snd/controlC0", "/dev/snd/readme", "/dev/snd/sub",
         "/dev/snd/sub/pcm"])),
   by decide, by decide⟩

/-- C7: for an entry visited at `PathOnHost ++ suffix` whose inspection succeeds,
the walk closure appends the inspected device with path `PathInContainer ++ suffix`
(and its rule): only the leading host prefix is substituted, whatever `suffix`
contains. -/
theorem walkFn_substitutes_host_path (fs : FS) (m : DeviceMapping)
    (acc : List Device × List DeviceCgroup) (suffix : String) (cd : Device)
    (cdc : DeviceCgroup)
    (h : deviceFromPath fs (m.PathOnHost ++ suffix) m.CgroupPermissions = .ok (cd, cdc)) :
    walkFn fs m acc (m.PathOnHost ++ suffix) =
      (acc.1 ++ [{ cd with Path := m.PathInContainer ++ suffix }], acc.2 ++ [cdc]) ∧
    strings.Replace (m.PathOnHost ++ suffix) m.PathOnHost m.PathInContainer 1 =
      m.PathInContainer ++ suffix := by
  refine ⟨?_, Replace_leading _ _ _⟩
  simp [walkFn, h, Replace_leading]

theorem walkFn_substitutes_host_path_witness :
    walkFn exNestedFS exNestedMapping ([], []) ("/d" ++ "/d/null") =
      ([{ Type_ := "c", Path := "/c/d/null", Major := 116, Minor := 3,
          FileMode := some 0o20660, UID := some 0, GID := some 29 }],
       [{ Allow := true, Type_ := some "c", Major := some 116, Minor := some 3,
          Access := some "r" }]) ∧
    (getDevicesFromPath exNestedFS 3 exNestedMapping).map (fun r => r.1.map Device.Path) =
      some ["/c/d/null"] :=
  ⟨(walkFn_substitutes_host_path exNestedFS exNestedMapping ([], []) "/d/null"
      { Type_ := "c", Path := "/d/d/null", Major := 116, Minor := 3,
        FileMode := some 0o20660, UID := some 0, GID := some 29 }
      { Allow := true, Type_ := some "c", Major := some 116, Minor := some 3,
        Access := some "r" } rfl).1,
   by decide⟩

/-- The outcome of `getDevicesFromPath`, on the entries the walk visits: on a
finite tree it returns, and it returns an error exactly when its device list is
empty, which is exactly when `PathOnHost` is not a device node and, if the walk
takes place, no visited entry is one. On failure both lists are empty and the
error names `PathOnHost` and carries the text of the error of the first
inspection; on success the device list is not empty. -/
theorem getDevicesFromPath_error_iff_no_device (fs : FS) (m : DeviceMapping)
    (hfin : FiniteFrom fs m.PathOnHost) :
    ∃ fuel₀ visited, ∀ fuel, fuel₀ ≤ fuel →
      filepath.Walk fs fuel m.PathOnHost = some visited ∧
      ∃ devs dc err, getDevicesFromPath fs fuel m = some (devs, dc, err) ∧
        (err ≠ none ↔ devs = []) ∧
        (devs = [] ↔
          (isDeviceNode fs m.PathOnHost = false ∧
            ((∃ info src, fs.lstat m.PathOnHost = .ok info ∧ info.mode &&& ModeDevice = 0 ∧
                fs.stat m.PathOnHost = .ok src ∧ src.IsDir = true) →
              ∀ p ∈ visited, isDeviceNode fs p = false))) ∧
        (err ≠ none → devs = [] ∧ dc = [] ∧
          ∃ e₀, deviceFromPath fs m.PathOnHost m.CgroupPermissions = .error e₀ ∧
            err = some (.errorf ("Gathering device information while adding custom device (" ++
              m.PathOnHost ++ ") failed: " ++ e₀.Error))) ∧
        (err = none → devs ≠ []) := by
  obtain ⟨n, visited, hW⟩ := Walk_terminates fs m.PathOnHost hfin
  refine ⟨n, visited, fun fuel hfuel => ⟨hW fuel hfuel, ?_⟩⟩
  cases hdev : deviceFromPath fs m.PathOnHost m.CgroupPermissions with
  | ok r =>
    obtain ⟨dev, dc⟩ := r
    have hnode : isDeviceNode fs m.PathOnHost = true :=
      (deviceFromPath_ok_iff fs m.PathOnHost m.CgroupPermissions).1 ⟨_, hdev⟩
    refine ⟨_, _, _, getDevicesFromPath_of_ok fs fuel m dev dc hdev, ?_, ?_, ?_, ?_⟩
    · simp
    · simp [hnode]
    · simp
    · simp
  | error e₀ =>
    have hnode : isDeviceNode fs m.PathOnHost = false := by
      cases hn : isDeviceNode fs m.PathOnHost with
      | false => rfl
      | true =>
        obtain ⟨r, hr⟩ := (deviceFromPath_ok_iff fs m.PathOnHost m.CgroupPermissions).2 hn
        rw [hr] at hdev
        cases hdev
    by_cases hwalk : e₀ = .errNotADevice ∧
        ∃ src, fs.stat m.PathOnHost = .ok src ∧ src.IsDir = true
    · obtain ⟨he, src, hs, hd⟩ := hwalk
      subst he
      have hinfo : ∃ info, fs.lstat m.PathOnHost = .ok info ∧ info.mode &&& ModeDevice = 0 := by
        cases hl : fs.lstat m.PathOnHost with
        | error e => simp [deviceFromPath, os_Lstat_error fs _ e hl] at hdev
        | ok info =>
          refine ⟨info, rfl, ?_⟩
          by_contra hm
          cases hsys : info.sys with
          | none => simp [deviceFromPath, os_Lstat_ok fs _ info hl, hm, hsys] at hdev
          | some st =>
            rw [deviceFromPath_of_device fs _ _ info st hl hm hsys] at hdev
            cases hdev
      obtain ⟨info, hl, hm⟩ := hinfo
      have hres := getDevicesFromPath_of_walk fs fuel m src visited hdev hs hd (hW fuel hfuel)
      have hnil : (visited.filterMap (resolveEntry fs m)).map Prod.fst = [] ↔
          ∀ p ∈ visited, isDeviceNode fs p = false := by
        rw [List.map_eq_nil_iff, List.filterMap_eq_nil_iff]
        exact forall₂_congr (fun p _ => resolveEntry_eq_none_iff fs m p)
      by_cases hpos : 0 < (visited.filterMap (resolveEntry fs m)).length
      · have hne : (visited.filterMap (resolveEntry fs m)).map Prod.fst ≠ [] := by
          intro hc
          rw [List.map_eq_nil_iff.1 hc] at hpos
          simp at hpos
        rw [if_pos hpos] at hres
        refine ⟨_, _, _, hres, ?_, ?_, ?_, ?_⟩
        · simp [hne]
        · constructor
          · intro hc; exact absurd hc hne
          · rintro ⟨_, hall⟩
            exact hnil.2 (hall ⟨info, src, hl, hm, hs, hd⟩)
        · simp
        · intro _; exact hne
      · have hzero : visited.filterMap (resolveEntry fs m) = [] := by
          apply List.eq_nil_of_length_eq_zero
          omega
        rw [if_neg hpos, hzero] at hres
        rw [hzero] at hnil
        refine ⟨_, _, _, hres, ?_, ?_, ?_, ?_⟩
        · simp
        · simp only [List.map_nil, true_iff]
          exact ⟨hnode, fun _ => hnil.1 rfl⟩
        · intro _
          exact ⟨rfl, rfl, .errNotADevice, rfl, rfl⟩
        · simp
    · have hno : e₀ ≠ .errNotADevice ∨
          ¬ ∃ src, fs.stat m.PathOnHost = .ok src ∧ src.IsDir = true := by
        by_cases he : e₀ = .errNotADevice
        · exact Or.inr (fun h => hwalk ⟨he, h⟩)
        · exact Or.inl he
      refine ⟨_, _, _, getDevicesFromPath_of_no_walk fs fuel m e₀ hdev hno, ?_, ?_, ?_, ?_⟩
      · simp
      · simp only [true_iff]
        refine ⟨hnode, ?_⟩
        rintro ⟨info, src, hl, hm, hs, hd⟩
        have := deviceFromPath_of_not_device fs m.PathOnHost m.CgroupPermissions info hl hm
        rw [this] at hdev
        injection hdev with he
        exact absurd ⟨he.symm, src, hs, hd⟩ hwalk
      · intro _
        exact ⟨rfl, rfl, e₀, rfl, rfl⟩
      · simp

theorem getDevicesFromPath_error_iff_no_device_witness :
    (∃ fuel₀ visited, ∀ fuel, fuel₀ ≤ fuel →
      filepath.Walk exFS fuel exEtcMapping.PathOnHost = some visited ∧
      ∃ devs dc err, getDevicesFromPath exFS fuel exEtcMapping = some (devs, dc, err) ∧
        (err ≠ none ↔ devs = []) ∧
        (devs = [] ↔
          (isDeviceNode exFS exEtcMapping.PathOnHost = false ∧
            ((∃ info src, exFS.lstat exEtcMapping.PathOnHost = .ok info ∧
                info.mode &&& ModeDevice = 0 ∧
                exFS.stat exEtcMapping.PathOnHost = .ok src ∧ src.IsDir = true) →
              ∀ p ∈ visited, isDeviceNode exFS p = false))) ∧
        (err ≠ none → devs = [] ∧ dc = [] ∧
          ∃ e₀, deviceFromPath exFS exEtcMapping.PathOnHost exEtcMapping.CgroupPermissions =
              .error e₀ ∧
            err = some (.errorf ("Gathering device information while adding custom device (" ++
              exEtcMapping.PathOnHost ++ ") failed: " ++ e₀.Error))) ∧
        (err = none → devs ≠ [])) ∧
    getDevicesFromPath exFS 2 exEtcMapping =
      some ([], [], some (.errorf
        "Gathering device information while adding custom device (/etc) failed: not a device node")) :=
  ⟨getDevicesFromPath_error_iff_no_device exFS exEtcMapping
      (finiteFrom_of_Walk exFS 2 "/etc" ["/etc", "/etc/passwd"] (by decide)),
   by decide⟩

/-- C9: a path whose metadata can be read and whose mode lacks the device bit
makes `deviceFromPath` fail with `ErrNotADevice`, returning no device and no
rule, whatever `Sys()` holds. -/
theorem deviceFromPath_not_a_device (fs : FS) (path permissions : String) (mode : Nat)
    (sys : Option Stat_t) (hl : fs.lstat path = .ok { mode := mode, sys := sys })
    (hmode : mode &&& ModeDevice = 0) :
    deviceFromPath fs path permissions = .error .errNotADevice :=
  deviceFromPath_of_not_device fs path permissions { mode := mode, sys := sys } hl hmode

theorem deviceFromPath_not_a_device_witness :
    deviceFromPath exFS "/etc/passwd" "rwm" = .error .errNotADevice ∧
    deviceFromPath exFS "/dev/snd" "rwm" = .error .errNotADevice :=
  ⟨deviceFromPath_not_a_device exFS "/etc/passwd" "rwm" 0o644
      (some { Rdev := 0, Uid := 0, Gid := 0 }) rfl (by decide), rfl⟩

/-- C10: on a device node whose metadata carries the raw device number,
`deviceFromPath` succeeds; the type of the device is "c" exactly when the mode has
the character-device bit and "b" exactly when it has not; and no successful call
yields any other type. -/
theorem deviceFromPath_type_char_or_block (fs : FS) (path permissions : String)
    (fi : FileInfo) (st : Stat_t) (hl : fs.lstat path = .ok fi)
    (hmode : fi.mode &&& ModeDevice ≠ 0) (hsys : fi.sys = some st) :
    (∃ dev dc, deviceFromPath fs path permissions = .ok (dev, dc) ∧
      (dev.Type_ = "c" ↔ fi.mode &&& ModeCharDevice ≠ 0) ∧
      (dev.Type_ = "b" ↔ fi.mode &&& ModeCharDevice = 0) ∧
      dc.Type_ = some dev.Type_) ∧
    (∀ (fs' : FS) (path' permissions' : String) (dev' : Device) (dc' : DeviceCgroup),
      deviceFromPath fs' path' permissions' = .ok (dev', dc') →
        dev'.Type_ = "c" ∨ dev'.Type_ = "b") := by
  have hcb : ("c" : String) ≠ "b" := by decide
  constructor
  · refine ⟨_, _, deviceFromPath_of_device fs path permissions fi st hl hmode hsys, ?_, ?_, rfl⟩
    · by_cases hc : fi.mode &&& ModeCharDevice = 0
      · simp [hc, hcb.symm]
      · simp [hc]
    · by_cases hc : fi.mode &&& ModeCharDevice = 0
      · simp [hc]
      · simp [hc, hcb]
  · intro fs' path' permissions' dev' dc' h
    obtain ⟨fi', st', hl', hm', hs'⟩ := deviceFromPath_ok_inv fs' path' permissions' dev' dc' h
    rw [deviceFromPath_of_device fs' path' permissions' fi' st' hl' hm' hs'] at h
    injection h with h
    injection h with h1 _
    rw [← h1]
    by_cases hc : fi'.mode &&& ModeCharDevice = 0
    · right; simp [hc]
    · left; simp [hc]

theorem deviceFromPath_type_char_or_block_witness :
    (∃ dev dc, deviceFromPath exFS "/dev/snd/controlC0" "rw" = .ok (dev, dc) ∧
      (dev.Type_ = "c" ↔ (exSndInfo 0).mode &&& ModeCharDevice ≠ 0) ∧
      (dev.Type_ = "b" ↔ (exSndInfo 0).mode &&& ModeCharDevice = 0) ∧
      dc.Type_ = some dev.Type_) ∧
    (deviceFromPath exFS "/dev/sda" "rw").toOption.map (fun r => r.1.Type_) = some "b" ∧
    (deviceFromPath exFS "/dev/snd/controlC0" "rw").toOption.map (fun r => r.1.Type_) =
      some "c" :=
  ⟨(deviceFromPath_type_char_or_block exFS "/dev/snd/controlC0" "rw" (exSndInfo 0)
      { Rdev := 0x7400 + 0, Uid := 0, Gid := 29 } rfl (by decide) rfl).1,
   by decide, by decide⟩

/-! ## The device number decoding -/

theorem and_shifted_mask (x m : Nat) : x &&& (m <<< 8) = ((x >>> 8) &&& m) <<< 8 := by
  apply Nat.eq_of_testBit_eq
  intro i
  simp only [Nat.testBit_and, Nat.testBit_shiftLeft, Nat.testBit_shiftRight]
  by_cases hi : 8 ≤ i
  · have h8 : 8 + (i - 8) = i := by omega
    simp [hi, h8]
  · simp [hi]

theorem and_0xfff00 (x : Nat) : x &&& 0xfff00 = (x / 256 % 4096) * 256 := by
  have h1 : (0xfff00 : Nat) = (2 ^ 12 - 1) <<< 8 := by decide
  rw [h1, and_shifted_mask, Nat.and_pow_two_sub_one_eq_mod, Nat.shiftRight_eq_div_pow,
    Nat.shiftLeft_eq]

theorem and_0xff (x : Nat) : x &&& 0xff = x % 256 := by
  have h1 : (0xff : Nat) = 2 ^ 8 - 1 := by decide
  rw [h1, Nat.and_pow_two_sub_one_eq_mod]

theorem and_0xfff (x : Nat) : x &&& 0xfff = x % 4096 := by
  have h1 : (0xfff : Nat) = 2 ^ 12 - 1 := by decide
  rw [h1, Nat.and_pow_two_sub_one_eq_mod]

theorem or_low8 (a b : Nat) (hb : b < 256) : a * 256 ||| b = a * 256 + b := by
  have := Nat.mul_add_lt_is_or (i := 8) (b := b) (by simpa using hb) a
  rw [Nat.mul_comm] at this
  exact this.symm

theorem or_low20 (a b : Nat) (hb : b < 1048576) : b ||| a * 1048576 = a * 1048576 + b := by
  have := Nat.mul_add_lt_is_or (i := 20) (b := b) (by simpa using hb) a
  rw [Nat.mul_comm] at this
  rw [Nat.lor_comm]
  exact this.symm

/-- The major number decoded from a device number below `2 ^ 63`. -/
theorem devices_Major_of_lt (n : Nat) (h : n < 2 ^ 63) :
    devices.Major (intOfUint64 n) = ((n / 256 % 4096 : Nat) : Int) := by
  have h64 : n % 2 ^ 64 = n := Nat.mod_eq_of_lt (by omega)
  have hi : intOfUint64 n = (n : Int) := by
    unfold intOfUint64
    rw [h64, if_pos h]
  have hs : ((n : Int) >>> 8) = ((n >>> 8 : Nat) : Int) := rfl
  have hm : (((n >>> 8 : Nat) : Int) % 2 ^ 64).toNat = n >>> 8 := by
    have : n >>> 8 < 2 ^ 64 := by
      rw [Nat.shiftRight_eq_div_pow]; omega
    omega
  rw [hi]
  unfold devices.Major andMask
  rw [hs, hm, and_0xfff, Nat.shiftRight_eq_div_pow]

/-- The minor number decoded from a device number below `2 ^ 63`. -/
theorem devices_Minor_of_lt (n : Nat) (h : n < 2 ^ 63) :
    devices.Minor (intOfUint64 n) =
      ((n / 4096 / 256 % 4096 * 256 + n % 256 : Nat) : Int) := by
  have h64 : n % 2 ^ 64 = n := Nat.mod_eq_of_lt (by omega)
  have hi : intOfUint64 n = (n : Int) := by
    unfold intOfUint64
    rw [h64, if_pos h]
  have hs : ((n : Int) >>> 12) = ((n >>> 12 : Nat) : Int) := rfl
  have hm : (((n >>> 12 : Nat) : Int) % 2 ^ 64).toNat = n >>> 12 := by
    have : n >>> 12 < 2 ^ 64 := by
      rw [Nat.shiftRight_eq_div_pow]; omega
    omega
  have hm0 : ((n : Int) % 2 ^ 64).toNat = n := by omega
  rw [hi]
  unfold devices.Minor andMask
  rw [hs, hm, hm0, and_0xff, and_0xfff00, Nat.shiftRight_eq_div_pow, Nat.lor_comm,
    or_low8 _ _ (Nat.mod_lt _ (by norm_num))]

/-- The encoding of non-negative numbers, in arithmetic form. -/
theorem encodeDev_of_nat (a b : Nat) (ha : a < 4096) :
    encodeDev (a : Int) (b : Int) =
      (b % 2 ^ 64 / 256 % 4096) * 1048576 + (a * 256 + b % 2 ^ 64 % 256) := by
  have hA : ((a : Int) % 2 ^ 64).toNat = a := by omega
  have hB : ((b : Int) % 2 ^ 64).toNat = b % 2 ^ 64 := by omega
  unfold encodeDev andMask
  rw [hA, hB, and_0xff, and_0xfff00, Nat.shiftLeft_eq, Nat.shiftLeft_eq]
  have e8 : (2 : Nat) ^ 8 = 256 := by norm_num
  have e12 : (2 : Nat) ^ 12 = 4096 := by norm_num
  rw [e8, e12, or_low8 _ _ (Nat.mod_lt _ (by norm_num))]
  have e : b % 2 ^ 64 / 256 % 4096 * 256 * 4096 = (b % 2 ^ 64 / 256 % 4096) * 1048576 := by
    omega
  rw [e, or_low20 _ _ (by omega)]
  omega

/-- Decoding and re-encoding a device number below `2 ^ 32` gives it back. -/
theorem encodeDev_decode (n : Nat) (h : n < 2 ^ 32) :
    encodeDev (devices.Major (intOfUint64 n)) (devices.Minor (intOfUint64 n)) = n := by
  rw [devices_Major_of_lt n (by omega), devices_Minor_of_lt n (by omega),
    encodeDev_of_nat _ _ (Nat.mod_lt _ (by norm_num))]
  have e1 : n / 4096 / 256 = n / 1048576 := by rw [Nat.div_div_eq_div_mul]
  have e2 : n / 1048576 % 4096 = n / 1048576 := Nat.mod_eq_of_lt (by omega)
  rw [e1, e2]
  have h1 : (n / 1048576 * 256 + n % 256) % 2 ^ 64 = n / 1048576 * 256 + n % 256 :=
    Nat.mod_eq_of_lt (by omega)
  have h2 : (n / 1048576 * 256 + n % 256) / 256 % 4096 = n / 1048576 := by omega
  have h3 : (n / 1048576 * 256 + n % 256) % 256 = n % 256 := by omega
  rw [h1, h2, h3]
  omega

/-- The encoding never exceeds 32 bits. -/
theorem encodeDev_lt (major minor : Int) (hM : 0 ≤ major) (hM' : major < 4096) :
    encodeDev major minor < 2 ^ 32 := by
  obtain ⟨a, rfl⟩ := Int.eq_ofNat_of_zero_le hM
  have hb : ∃ b : Nat, ((b : Int) % 2 ^ 64).toNat = (minor % 2 ^ 64).toNat ∧
      (b : Int) = minor % 2 ^ 64 := by
    refine ⟨(minor % 2 ^ 64).toNat, ?_, ?_⟩ <;> omega
  obtain ⟨b, hb1, hb2⟩ := hb
  have henc : encodeDev (a : Int) minor = encodeDev (a : Int) (b : Int) := by
    unfold encodeDev andMask
    rw [hb1]
  rw [henc, encodeDev_of_nat a b (by omega)]
  omega

theorem shiftRight_eq_ediv (x : Int) (k : Nat) :
    x >>> (k : Int) = x / ((2 ^ k : Nat) : Int) := by
  cases x with
  | ofNat m =>
    rw [Int.ofNat_eq_coe, Int.shiftRight_coe_nat, Nat.shiftRight_eq_div_pow]
    norm_cast
  | negSucc m =>
    rw [Int.shiftRight_negSucc, Nat.shiftRight_eq_div_pow,
      Int.negSucc_ediv _ (by exact_mod_cast Nat.pow_pos (Nat.zero_lt_two)), Int.negSucc_eq]
    norm_cast

theorem shiftRight_8 (x : Int) : x >>> 8 = x / 256 := by
  have := shiftRight_eq_ediv x 8
  norm_num at this
  exact this

theorem shiftRight_12 (x : Int) : x >>> 12 = x / 4096 := by
  have := shiftRight_eq_ediv x 12
  norm_num at this
  exact this

/-- The major number decoded from any raw device number. -/
theorem devices_Major_eq (n : Nat) :
    devices.Major (intOfUint64 n) = ((n / 256 % 4096 : Nat) : Int) := by
  unfold devices.Major andMask intOfUint64
  rw [and_0xfff, shiftRight_8]
  split <;> omega

/-- The minor number decoded from any raw device number. -/
theorem devices_Minor_eq (n : Nat) :
    devices.Minor (intOfUint64 n) =
      ((n / 4096 / 256 % 4096 * 256 + n % 256 : Nat) : Int) := by
  unfold devices.Minor andMask intOfUint64
  rw [and_0xff, and_0xfff00, shiftRight_12, Nat.lor_comm,
    or_low8 _ _ (Nat.mod_lt _ (by norm_num))]
  split <;> omega

/-- Decoding and re-encoding keeps exactly the low 32 bits of a device number. -/
theorem encodeDev_decode_mod (n : Nat) :
    encodeDev (devices.Major (intOfUint64 n)) (devices.Minor (intOfUint64 n)) =
      n % 2 ^ 32 := by
  rw [devices_Major_eq, devices_Minor_eq, encodeDev_of_nat _ _ (Nat.mod_lt _ (by norm_num))]
  have e1 : n / 4096 / 256 = n / 1048576 := by rw [Nat.div_div_eq_div_mul]
  rw [e1]
  have hq : n / 1048576 % 4096 < 4096 := Nat.mod_lt _ (by norm_num)
  have h1 : (n / 1048576 % 4096 * 256 + n % 256) % 2 ^ 64 =
      n / 1048576 % 4096 * 256 + n % 256 := Nat.mod_eq_of_lt (by omega)
  have h2 : (n / 1048576 % 4096 * 256 + n % 256) / 256 % 4096 = n / 1048576 % 4096 := by
    omega
  have h3 : (n / 1048576 % 4096 * 256 + n % 256) % 256 = n % 256 := by omega
  rw [h1, h2, h3]
  omega

theorem decode_encode_arith (major minor : Nat) (hM : major < 2 ^ 12) (hm : minor < 2 ^ 20) :
    (minor / 256 % 4096 * 1048576 + (major * 256 + minor % 256)) < 2 ^ 32 ∧
    (minor / 256 % 4096 * 1048576 + (major * 256 + minor % 256)) / 256 % 4096 = major ∧
    (minor / 256 % 4096 * 1048576 + (major * 256 + minor % 256)) / 4096 / 256 % 4096 * 256 +
      (minor / 256 % 4096 * 1048576 + (major * 256 + minor % 256)) % 256 = minor := by
  have hq : minor / 256 % 4096 = minor / 256 := Nat.mod_eq_of_lt (by omega)
  rw [hq]
  generalize hqd : minor / 256 = q at *
  generalize hrd : minor % 256 = r at *
  have hr : r < 256 := by omega
  have hq' : q < 4096 := by omega
  have hmin : minor = q * 256 + r := by omega
  have e1 : (q * 1048576 + (major * 256 + r)) / 256 = q * 4096 + major := by omega
  have e2 : (q * 1048576 + (major * 256 + r)) / 4096 / 256 = q := by
    rw [Nat.div_div_eq_div_mul]; omega
  have e3 : (q * 1048576 + (major * 256 + r)) % 256 = r := by omega
  rw [e1, e2, e3]
  refine ⟨by omega, by omega, by omega⟩

theorem devices_Major_bounds (x : Int) : 0 ≤ devices.Major x ∧ devices.Major x < 4096 := by
  unfold devices.Major andMask
  have h : (x >>> 8 % 2 ^ 64).toNat &&& 0xfff ≤ 0xfff := Nat.and_le_right
  omega

/-! ## Claims on the fields of the inspected device -/

/-- C11: the file system reports the raw device number `n` of a device node in
the 32-bit encoding of the kernel (12 bits of major, 20 bits of minor), so
`n < 2 ^ 32`. For such a node the major and minor returned by `deviceFromPath` are
`n / 2 ^ 8 % 2 ^ 12` and `n / 2 ^ 20 % 2 ^ 12 * 2 ^ 8 + n % 2 ^ 8`, and re-encoding
them gives back `n`; two such device numbers with the same major and minor are
equal; conversely every major below `2 ^ 12` and minor below `2 ^ 20` is decoded
from its encoding; and in general the re-encoded value is `n % 2 ^ 32`. -/
theorem deviceFromPath_decode_roundtrip (fs : FS) (path permissions : String)
    (fi : FileInfo) (st : Stat_t) (hl : fs.lstat path = .ok fi)
    (hmode : fi.mode &&& ModeDevice ≠ 0) (hsys : fi.sys = some st)
    (hn : st.Rdev < 2 ^ 32) :
    (∃ dev dc, deviceFromPath fs path permissions = .ok (dev, dc) ∧
      dev.Major = ((st.Rdev / 256 % 4096 : Nat) : Int) ∧
      dev.Minor = ((st.Rdev / 4096 / 256 % 4096 * 256 + st.Rdev % 256 : Nat) : Int) ∧
      encodeDev dev.Major dev.Minor = st.Rdev) ∧
    (∀ n₁ n₂ : Nat, n₁ < 2 ^ 32 → n₂ < 2 ^ 32 →
      devices.Major (intOfUint64 n₁) = devices.Major (intOfUint64 n₂) →
      devices.Minor (intOfUint64 n₁) = devices.Minor (intOfUint64 n₂) → n₁ = n₂) ∧
    (∀ major minor : Nat, major < 2 ^ 12 → minor < 2 ^ 20 →
      encodeDev (major : Int) (minor : Int) < 2 ^ 32 ∧
      devices.Major (intOfUint64 (encodeDev (major : Int) (minor : Int))) = (major : Int) ∧
      devices.Minor (intOfUint64 (encodeDev (major : Int) (minor : Int))) = (minor : Int)) ∧
    (∀ n : Nat,
      encodeDev (devices.Major (intOfUint64 n)) (devices.Minor (intOfUint64 n)) =
        n % 2 ^ 32) := by
  refine ⟨⟨_, _, deviceFromPath_of_device fs path permissions fi st hl hmode hsys,
    devices_Major_eq _, devices_Minor_eq _, encodeDev_decode _ hn⟩, ?_, ?_,
    encodeDev_decode_mod⟩
  · intro n₁ n₂ h₁ h₂ hM hm
    rw [← encodeDev_decode n₁ h₁, ← encodeDev_decode n₂ h₂, hM, hm]
  · intro major minor hM hm
    rw [devices_Major_eq, devices_Minor_eq, encodeDev_of_nat major minor (by omega)]
    have h1 : minor % 2 ^ 64 = minor := Nat.mod_eq_of_lt (by omega)
    rw [h1]
    obtain ⟨a1, a2, a3⟩ := decode_encode_arith major minor hM hm
    exact ⟨a1, congrArg Nat.cast a2, congrArg Nat.cast a3⟩

theorem deviceFromPath_decode_roundtrip_witness :
    ∃ dev dc, deviceFromPath exFS "/dev/snd/sub/pcm" "rw" = .ok (dev, dc) ∧
      dev.Major = ((0x7418 / 256 % 4096 : Nat) : Int) ∧
      dev.Minor = ((0x7418 / 4096 / 256 % 4096 * 256 + 0x7418 % 256 : Nat) : Int) ∧
      encodeDev dev.Major dev.Minor = 0x7418 :=
  (deviceFromPath_decode_roundtrip exFS "/dev/snd/sub/pcm" "rw" (exSndInfo 24)
    { Rdev := 0x7400 + 24, Uid := 0, Gid := 29 } rfl (by decide) rfl (by decide)).1

/-- C12, as stated, fails: for the block device `/dev/sda` with mode bits 0660
the stored `FileMode` is 0o60660, not the permission bits 0o660. -/
theorem deviceFromPath_stores_type_bits :
    ∃ dev dc, deviceFromPath exFS "/dev/sda" "rwm" = .ok (dev, dc) ∧
      exSdaInfo.mode &&& 0o777 = 0o660 ∧
      dev.FileMode = some 0o60660 ∧
      dev.FileMode ≠ some (exSdaInfo.mode &&& 0o777) :=
  ⟨_, _, rfl, by decide, by decide, by decide⟩

theorem and_511 (y : Nat) : y &&& 511 = y % 512 := by
  have h1 : (511 : Nat) = 2 ^ 9 - 1 := by decide
  rw [h1, Nat.and_pow_two_sub_one_eq_mod]

theorem or_S_IFCHR (x : Nat) (h : x < 512) : x ||| S_IFCHR = x + 8192 := by
  have := Nat.mul_add_lt_is_or (i := 13) (b := x) (by norm_num; omega) 1
  rw [Nat.lor_comm]
  simpa [S_IFCHR, Nat.add_comm] using this.symm

theorem or_S_IFBLK (x : Nat) (h : x < 512) : x ||| S_IFBLK = x + 24576 := by
  have := Nat.mul_add_lt_is_or (i := 13) (b := x) (by norm_num; omega) 3
  rw [Nat.lor_comm]
  simpa [S_IFBLK, Nat.add_comm] using this.symm

theorem and_ModePerm (x : Nat) : x &&& ModePerm = x % 512 := by
  have h1 : ModePerm = 2 ^ 9 - 1 := by decide
  rw [h1, Nat.and_pow_two_sub_one_eq_mod]

/-- C12, amended: for a device node the stored `FileMode` is the permission bits
of the node (`mode & 0o777`) or-ed with the `syscall` type bits of its type,
`S_IFCHR` for a character device and `S_IFBLK` for a block device; its low nine
bits are the permission bits, and the type is also carried in the type field. -/
theorem deviceFromPath_fileMode (fs : FS) (path permissions : String) (fi : FileInfo)
    (st : Stat_t) (hl : fs.lstat path = .ok fi) (hmode : fi.mode &&& ModeDevice ≠ 0)
    (hsys : fi.sys = some st) :
    ∃ dev dc v, deviceFromPath fs path permissions = .ok (dev, dc) ∧
      dev.FileMode = some v ∧
      v = (fi.mode &&& 0o777) |||
        (if fi.mode &&& ModeCharDevice ≠ 0 then S_IFCHR else S_IFBLK) ∧
      v = fi.mode % 512 + (if fi.mode &&& ModeCharDevice ≠ 0 then 0o20000 else 0o60000) ∧
      v &&& 0o777 = fi.mode &&& 0o777 ∧
      (dev.Type_ = "c" ↔ v / 512 = 0o20) ∧ (dev.Type_ = "b" ↔ v / 512 = 0o60) := by
  have hperm : fi.mode &&& 0o777 = fi.mode % 512 := and_ModePerm fi.mode
  have hlt : fi.mode % 512 < 512 := Nat.mod_lt _ (by norm_num)
  have hcb : ("c" : String) ≠ "b" := by decide
  by_cases hc : fi.mode &&& ModeCharDevice = 0
  · refine ⟨_, _, (fi.mode &&& ModePerm) ||| S_IFBLK,
      deviceFromPath_of_device fs path permissions fi st hl hmode hsys, ?_, ?_, ?_, ?_, ?_, ?_⟩
    · simp [hc]
    · simp [hc, ModePerm]
    · rw [and_ModePerm, or_S_IFBLK _ hlt]; simp [hc]
    · rw [and_ModePerm, or_S_IFBLK _ hlt, hperm, and_511]
      omega
    · rw [and_ModePerm, or_S_IFBLK _ hlt]
      simp only [hc, ne_eq, not_true_eq_false, if_false]
      constructor
      · intro h; exact absurd h.symm hcb
      · intro h; omega
    · rw [and_ModePerm, or_S_IFBLK _ hlt]
      simp only [hc, ne_eq, not_true_eq_false, if_false, true_iff]
      omega
  · refine ⟨_, _, (fi.mode &&& ModePerm) ||| S_IFCHR,
      deviceFromPath_of_device fs path permissions fi st hl hmode hsys, ?_, ?_, ?_, ?_, ?_, ?_⟩
    · simp [hc]
    · simp [hc, ModePerm]
    · rw [and_ModePerm, or_S_IFCHR _ hlt]; simp [hc]
    · rw [and_ModePerm, or_S_IFCHR _ hlt, hperm, and_511]
      omega
    · rw [and_ModePerm, or_S_IFCHR _ hlt]
      simp only [hc, ne_eq, not_false_eq_true, if_true, true_iff]
      omega
    · rw [and_ModePerm, or_S_IFCHR _ hlt]
      simp only [hc, ne_eq, not_false_eq_true, if_true]
      constructor
      · intro h; exact absurd h hcb
      · intro h; omega

theorem deviceFromPath_fileMode_witness :
    ∃ dev dc v, deviceFromPath exFS "/dev/snd/controlC0" "rw" = .ok (dev, dc) ∧
      dev.FileMode = some v ∧
      v = ((exSndInfo 0).mode &&& 0o777) |||
        (if (exSndInfo 0).mode &&& ModeCharDevice ≠ 0 then S_IFCHR else S_IFBLK) ∧
      v = (exSndInfo 0).mode % 512 +
        (if (exSndInfo 0).mode &&& ModeCharDevice ≠ 0 then 0o20000 else 0o60000) ∧
      v &&& 0o777 = (exSndInfo 0).mode &&& 0o777 ∧
      (dev.Type_ = "c" ↔ v / 512 = 0o20) ∧ (dev.Type_ = "b" ↔ v / 512 = 0o60) :=
  deviceFromPath_fileMode exFS "/dev/snd/controlC0" "rw" (exSndInfo 0)
    { Rdev := 0x7400 + 0, Uid := 0, Gid := 29 } rfl (by decide) rfl

/-- C13: when `deviceFromPath` succeeds, the returned rule allows, names the type,
major and minor of the returned device (no wildcard), and its access string is
the `permissions` argument. -/
theorem deviceFromPath_rule (fs : FS) (path permissions : String) (dev : Device)
    (dc : DeviceCgroup) (h : deviceFromPath fs path permissions = .ok (dev, dc)) :
    dc.Allow = true ∧ dc.Type_ = some dev.Type_ ∧ dc.Major = some dev.Major ∧
    dc.Minor = some dev.Minor ∧ dc.Access = some permissions := by
  obtain ⟨fi, st, hl, hm, hs⟩ := deviceFromPath_ok_inv fs path permissions dev dc h
  rw [deviceFromPath_of_device fs path permissions fi st hl hm hs] at h
  injection h with h
  injection h with h1 h2
  subst h1 h2
  exact ⟨rfl, rfl, rfl, rfl, rfl⟩

theorem deviceFromPath_rule_witness :
    deviceFromPath exFS "/dev/sda" "rwm" =
      .ok ({ Type_ := "b", Path := "/dev/sda", Major := 8, Minor := 0,
             FileMode := some 0o60660, UID := some 0, GID := some 6 },
           { Allow := true, Type_ := some "b", Major := some 8, Minor := some 0,
             Access := some "rwm" }) ∧
    (({ Allow := true, Type_ := some "b", Major := some 8, Minor := some 0,
        Access := some "rwm" } : DeviceCgroup).Access = some "rwm") :=
  ⟨rfl, (deviceFromPath_rule exFS "/dev/sda" "rwm"
      { Type_ := "b", Path := "/dev/sda", Major := 8, Minor := 0,
        FileMode := some 0o60660, UID := some 0, GID := some 6 }
      { Allow := true, Type_ := some "b", Major := some 8, Minor := some 0,
        Access := some "rwm" } rfl).2.2.2.2⟩

/-! ## The pairs returned by `getDevicesFromPath` -/

/-- What `deviceFromPath` guarantees of a rule, kept under a change of the path. -/
theorem deviceFromPath_pair (fs : FS) (path permissions newPath : String) (cd : Device)
    (cdc : DeviceCgroup) (h : deviceFromPath fs path permissions = .ok (cd, cdc)) :
    cdc.Allow = true ∧ ruleFor { cd with Path := newPath } cdc ∧
      cdc.Access = some permissions := by
  obtain ⟨fi, st, hl, hm, hs⟩ := deviceFromPath_ok_inv fs path permissions cd cdc h
  rw [deviceFromPath_of_device fs path permissions fi st hl hm hs] at h
  injection h with h
  injection h with h1 h2
  subst h1 h2
  exact ⟨rfl, ⟨rfl, rfl, rfl⟩, rfl⟩

theorem resolveEntry_pair (fs : FS) (m : DeviceMapping) (dpath : String)
    (e : Device × DeviceCgroup) (h : resolveEntry fs m dpath = some e) :
    e.2.Allow = true ∧ ruleFor e.1 e.2 ∧ e.2.Access = some m.CgroupPermissions := by
  unfold resolveEntry at h
  cases hdev : deviceFromPath fs dpath m.CgroupPermissions with
  | error err => simp [hdev] at h
  | ok r =>
    obtain ⟨cd, cdc⟩ := r
    simp only [hdev, Option.some.injEq] at h
    subst h
    exact deviceFromPath_pair fs dpath m.CgroupPermissions _ cd cdc hdev

/-- Every result of `getDevicesFromPath` is a list of pairs, each made of a device
and the rule inspected with it. -/
theorem getDevicesFromPath_pairs (fs : FS) (fuel : Nat) (m : DeviceMapping)
    (devs : List Device) (dc : List DeviceCgroup) (err : Option GoError)
    (h : getDevicesFromPath fs fuel m = some (devs, dc, err)) :
    ∃ found : List (Device × DeviceCgroup),
      devs = found.map Prod.fst ∧ dc = found.map Prod.snd ∧
      ∀ e ∈ found, e.2.Allow = true ∧ ruleFor e.1 e.2 ∧
        e.2.Access = some m.CgroupPermissions := by
  cases hdev : deviceFromPath fs m.PathOnHost m.CgroupPermissions with
  | ok r =>
    obtain ⟨cd, cdc⟩ := r
    rw [getDevicesFromPath_of_ok fs fuel m cd cdc hdev] at h
    simp only [Option.some.injEq, Prod.mk.injEq] at h
    obtain ⟨h1, h2, -⟩ := h
    refine ⟨[({ cd with Path := m.PathInContainer }, cdc)], by simp [← h1], by simp [← h2], ?_⟩
    intro e he
    rw [List.mem_singleton] at he
    subst he
    exact deviceFromPath_pair fs m.PathOnHost m.CgroupPermissions _ cd cdc hdev
  | error e₀ =>
    by_cases hwalk : e₀ = .errNotADevice ∧
        ∃ src, fs.stat m.PathOnHost = .ok src ∧ src.IsDir = true
    · obtain ⟨he, src, hs, hd⟩ := hwalk
      subst he
      cases hW : filepath.Walk fs fuel m.PathOnHost with
      | none => simp [getDevicesFromPath, hdev, os.Stat, hs, hd, hW] at h
      | some visited =>
        rw [getDevicesFromPath_of_walk fs fuel m src visited hdev hs hd hW] at h
        simp only [Option.some.injEq, Prod.mk.injEq] at h
        obtain ⟨h1, h2, -⟩ := h
        refine ⟨visited.filterMap (resolveEntry fs m), h1.symm, h2.symm, ?_⟩
        intro e he
        obtain ⟨p, -, hp⟩ := List.mem_filterMap.1 he
        exact resolveEntry_pair fs m p e hp
    · have hno : e₀ ≠ .errNotADevice ∨
          ¬ ∃ src, fs.stat m.PathOnHost = .ok src ∧ src.IsDir = true := by
        by_cases he : e₀ = .errNotADevice
        · exact Or.inr (fun h => hwalk ⟨he, h⟩)
        · exact Or.inl he
      rw [getDevicesFromPath_of_no_walk fs fuel m e₀ hdev hno] at h
      simp only [Option.some.injEq, Prod.mk.injEq] at h
      obtain ⟨h1, h2, -⟩ := h
      exact ⟨[], by simp [← h1], by simp [← h2], by simp⟩

/-- On a finite tree `getDevicesFromPath` returns for every sufficient fuel. -/
theorem getDevicesFromPath_returns (fs : FS) (m : DeviceMapping)
    (hfin : FiniteFrom fs m.PathOnHost) :
    ∃ fuel₀, ∀ fuel, fuel₀ ≤ fuel → ∃ devs dc err,
      getDevicesFromPath fs fuel m = some (devs, dc, err) := by
  obtain ⟨n, visited, hW⟩ := Walk_terminates fs m.PathOnHost hfin
  refine ⟨n, fun fuel hfuel => ?_⟩
  cases hdev : deviceFromPath fs m.PathOnHost m.CgroupPermissions with
  | ok r => exact ⟨_, _, _, getDevicesFromPath_of_ok fs fuel m r.1 r.2 hdev⟩
  | error e₀ =>
    by_cases hwalk : e₀ = .errNotADevice ∧
        ∃ src, fs.stat m.PathOnHost = .ok src ∧ src.IsDir = true
    · obtain ⟨he, src, hs, hd⟩ := hwalk
      subst he
      exact ⟨_, _, _, getDevicesFromPath_of_walk fs fuel m src visited hdev hs hd (hW fuel hfuel)⟩
    · have hno : e₀ ≠ .errNotADevice ∨
          ¬ ∃ src, fs.stat m.PathOnHost = .ok src ∧ src.IsDir = true := by
        by_cases he : e₀ = .errNotADevice
        · exact Or.inr (fun h => hwalk ⟨he, h⟩)
        · exact Or.inl he
      exact ⟨_, _, _, getDevicesFromPath_of_no_walk fs fuel m e₀ hdev hno⟩

theorem forall₂_of_pairs (found : List (Device × DeviceCgroup))
    (R : Device → DeviceCgroup → Prop) (h : ∀ e ∈ found, R e.1 e.2) :
    List.Forall₂ R (found.map Prod.fst) (found.map Prod.snd) := by
  induction found with
  | nil => exact List.Forall₂.nil
  | cons e es ih =>
    exact List.Forall₂.cons (h e (List.mem_cons_self _ _))
      (ih (fun x hx => h x (List.mem_cons_of_mem _ hx)))

theorem index_of_pairs (found : List (Device × DeviceCgroup))
    (R : Device → DeviceCgroup → Prop) (h : ∀ e ∈ found, R e.1 e.2) (i : Nat) (d : Device)
    (hd : (found.map Prod.fst)[i]? = some d) :
    ∃ c, (found.map Prod.snd)[i]? = some c ∧ R d c := by
  rw [List.getElem?_map] at hd
  cases he : found[i]? with
  | none => simp [he] at hd
  | some e =>
    simp only [he, Option.map_some', Option.some.injEq] at hd
    subst hd
    refine ⟨e.2, by simp [List.getElem?_map, he], h e ?_⟩
    exact List.getElem?_mem he

/-! ## Claims on the pairs returned by `getDevicesFromPath` -/

/-- C14: whatever `getDevicesFromPath` returns, the device list and the rule list
have the same length and the i-th rule allows and names the type, major and minor
of the i-th device, in the single-device branch and in the directory walk alike;
on a finite tree it does return. -/
theorem getDevicesFromPath_rules_aligned (fs : FS) (m : DeviceMapping) :
    (∀ (fuel : Nat) (devs : List Device) (dc : List DeviceCgroup) (err : Option GoError),
      getDevicesFromPath fs fuel m = some (devs, dc, err) →
      devs.length = dc.length ∧
      List.Forall₂ (fun d c => c.Allow = true ∧ ruleFor d c) devs dc ∧
      (∀ (i : Nat) (d : Device), devs[i]? = some d → ∃ c, dc[i]? = some c ∧ c.Allow = true ∧
        c.Type_ = some d.Type_ ∧ c.Major = some d.Major ∧ c.Minor = some d.Minor)) ∧
    (FiniteFrom fs m.PathOnHost → ∃ fuel₀, ∀ fuel, fuel₀ ≤ fuel → ∃ devs dc err,
      getDevicesFromPath fs fuel m = some (devs, dc, err) ∧ devs.length = dc.length ∧
      List.Forall₂ (fun d c => c.Allow = true ∧ ruleFor d c) devs dc) := by
  have key : ∀ (fuel : Nat) (devs : List Device) (dc : List DeviceCgroup) (err : Option GoError),
      getDevicesFromPath fs fuel m = some (devs, dc, err) →
      devs.length = dc.length ∧
      List.Forall₂ (fun d c => c.Allow = true ∧ ruleFor d c) devs dc ∧
      (∀ (i : Nat) (d : Device), devs[i]? = some d → ∃ c, dc[i]? = some c ∧ c.Allow = true ∧
        c.Type_ = some d.Type_ ∧ c.Major = some d.Major ∧ c.Minor = some d.Minor) := by
    intro fuel devs dc err h
    obtain ⟨found, rfl, rfl, hall⟩ := getDevicesFromPath_pairs fs fuel m devs dc err h
    have hR : ∀ e ∈ found, e.2.Allow = true ∧ ruleFor e.1 e.2 :=
      fun e he => ⟨(hall e he).1, (hall e he).2.1⟩
    refine ⟨by simp, forall₂_of_pairs found (fun d c => c.Allow = true ∧ ruleFor d c) hR, ?_⟩
    intro i d hd
    obtain ⟨c, hc, ha, hr⟩ :=
      index_of_pairs found (fun d c => c.Allow = true ∧ ruleFor d c) hR i d hd
    exact ⟨c, hc, ha, hr.1, hr.2.1, hr.2.2⟩
  refine ⟨key, fun hfin => ?_⟩
  obtain ⟨n, hn⟩ := getDevicesFromPath_returns fs m hfin
  refine ⟨n, fun fuel hfuel => ?_⟩
  obtain ⟨devs, dc, err, h⟩ := hn fuel hfuel
  exact ⟨devs, dc, err, h, (key fuel devs dc err h).1, (key fuel devs dc err h).2.1⟩

theorem getDevicesFromPath_rules_aligned_witness :
    ∃ fuel₀, ∀ fuel, fuel₀ ≤ fuel → ∃ devs dc err,
      getDevicesFromPath exFS fuel exSndMapping = some (devs, dc, err) ∧
      devs.length = dc.length ∧
      List.Forall₂ (fun d c => c.Allow = true ∧ ruleFor d c) devs dc :=
  (getDevicesFromPath_rules_aligned exFS exSndMapping).2
    (finiteFrom_of_Walk exFS 3 "/dev/snd"
      ["/dev/snd", "/dev/snd/controlC0", "/dev/snd/readme", "/dev/snd/sub", "/dev/snd/sub/pcm"]
      (by decide))

/-- C15: whatever `getDevicesFromPath` returns, every returned rule has the access
string `CgroupPermissions` of the mapping, for one device resolved directly and
for any number found under a directory; on a finite tree it does return. -/
theorem getDevicesFromPath_access_is_permissions (fs : FS) (m : DeviceMapping) :
    (∀ (fuel : Nat) (devs : List Device) (dc : List DeviceCgroup) (err : Option GoError),
      getDevicesFromPath fs fuel m = some (devs, dc, err) →
      ∀ c ∈ dc, c.Access = some m.CgroupPermissions) ∧
    (FiniteFrom fs m.PathOnHost → ∃ fuel₀, ∀ fuel, fuel₀ ≤ fuel → ∃ devs dc err,
      getDevicesFromPath fs fuel m = some (devs, dc, err) ∧
      ∀ c ∈ dc, c.Access = some m.CgroupPermissions) := by
  have key : ∀ (fuel : Nat) (devs : List Device) (dc : List DeviceCgroup) (err : Option GoError),
      getDevicesFromPath fs fuel m = some (devs, dc, err) →
      ∀ c ∈ dc, c.Access = some m.CgroupPermissions := by
    intro fuel devs dc err h c hc
    obtain ⟨found, -, rfl, hall⟩ := getDevicesFromPath_pairs fs fuel m devs dc err h
    obtain ⟨e, he, rfl⟩ := List.mem_map.1 hc
    exact (hall e he).2.2
  refine ⟨key, fun hfin => ?_⟩
  obtain ⟨n, hn⟩ := getDevicesFromPath_returns fs m hfin
  refine ⟨n, fun fuel hfuel => ?_⟩
  obtain ⟨devs, dc, err, h⟩ := hn fuel hfuel
  exact ⟨devs, dc, err, h, key fuel devs dc err h⟩

theorem getDevicesFromPath_access_is_permissions_witness :
    (∀ c ∈ ([{ Allow := true, Type_ := some "c", Major := some 116, Minor := some 0,
               Access := some "rw" },
             { Allow := true, Type_ := some "c", Major := some 116, Minor := some 24,
               Access := some "rw" }] : List DeviceCgroup), c.Access = some "rw") ∧
    (getDevicesFromPath exFS 3 exSndMapping).map (fun r => r.2.1.map DeviceCgroup.Access) =
      some [some "rw", some "rw"] :=
  ⟨(getDevicesFromPath_access_is_permissions exFS exSndMapping).1 3
      [{ Type_ := "c", Path := "/dev/sound/controlC0", Major := 116, Minor := 0,
         FileMode := some 0o20660, UID := some 0, GID := some 29 },
       { Type_ := "c", Path := "/dev/sound/sub/pcm", Major := 116, Minor := 24,
         FileMode := some 0o20660, UID := some 0, GID := some 29 }]
      _ none rfl,
   by decide⟩

/-- C17: when the inspection of `PathOnHost` fails with an error other than
`ErrNotADevice`, or fails with `ErrNotADevice` while `PathOnHost` is not an
existing directory, `getDevicesFromPath` walks nothing (its result needs no fuel
and does not depend on any directory listing), returns no device and no rule, and
fails with the mapping error that carries the text of that inspection error. -/
theorem getDevicesFromPath_no_fallback (fs : FS) (m : DeviceMapping) (err : GoError)
    (h : deviceFromPath fs m.PathOnHost m.CgroupPermissions = .error err)
    (hno : err ≠ .errNotADevice ∨
      ¬ ∃ src, fs.stat m.PathOnHost = .ok src ∧ src.IsDir = true) :
    ∀ fuel,
      getDevicesFromPath fs fuel m =
        some ([], [], some (.errorf
          ("Gathering device information while adding custom device (" ++ m.PathOnHost ++
            ") failed: " ++ err.Error))) ∧
      getDevicesFromPath fs 0 m = getDevicesFromPath fs fuel m ∧
      ∀ listing, getDevicesFromPath { fs with readDirNames := listing } fuel m =
        getDevicesFromPath fs fuel m := by
  intro fuel
  have h1 := getDevicesFromPath_of_no_walk fs fuel m err h hno
  have h0 := getDevicesFromPath_of_no_walk fs 0 m err h hno
  refine ⟨h1, by rw [h0, h1], fun listing => ?_⟩
  have h' : deviceFromPath { fs with readDirNames := listing } m.PathOnHost
      m.CgroupPermissions = .error err := h
  rw [h1]
  exact getDevicesFromPath_of_no_walk { fs with readDirNames := listing } fuel m err h' hno

theorem getDevicesFromPath_no_fallback_witness :
    getDevicesFromPath exFS 0 exMissingMapping =
      some ([], [], some (.errorf
        "Gathering device information while adding custom device (/nope) failed: lstat /nope: no such file or directory")) ∧
    getDevicesFromPath exFS 0 exFileMapping =
      some ([], [], some (.errorf
        "Gathering device information while adding custom device (/etc/passwd) failed: not a device node")) :=
  ⟨(getDevicesFromPath_no_fallback exFS exMissingMapping
      (.pathError "lstat" "/nope" "no such file or directory") rfl
      (Or.inl (by decide)) 0).1,
   (getDevicesFromPath_no_fallback exFS exFileMapping .errNotADevice rfl
      (Or.inr (by
        rintro ⟨src, hs, hd⟩
        have hs' : exFileInfo = src := by
          have : exFS.stat "/etc/passwd" = .ok exFileInfo := rfl
          rw [exFileMapping] at hs
          rw [this] at hs
          injection hs
        subst hs'
        exact absurd hd (by decide))) 0).1⟩

/-! ## Further claims on `mergeDevices` -/

theorem mergeStep_of_survivor (ds : List ConfigsDevice) (us : List Device) (hasTty : Bool)
    (d : ConfigsDevice) (hd : d ∈ survivors ds us hasTty)
    (acc : List Device × List DeviceCgroup) :
    mergeStep (userPaths us) hasTty acc d =
      (acc.1 ++ [defaultToDevice d], acc.2 ++ [defaultToCgroup d]) := by
  simp only [survivors, List.mem_filter, decide_eq_true_eq] at hd
  obtain ⟨-, htty, hmem⟩ := hd
  have hdef : PathMap.defined (userPaths us) d.Path = false := by
    cases h : PathMap.defined (userPaths us) d.Path with
    | false => rfl
    | true => exact absurd ((defined_userPaths us d.Path).1 h) hmem
  simp [mergeStep, htty, hdef]

theorem runeToString_length (r : Int) : (runeToString r).length = 1 := by
  unfold runeToString
  split <;> rfl

/-- C16: for a default that survives the filters, the loop body appends the device
with the type `string(d.Type)` (one character) and the path, major, minor, file
mode, uid and gid of the default, and at the same position the allowing rule with
the same type, major and minor and the access `d.Permissions`; the
default-derived parts of the two returned lists have the same length and are
aligned index by index. -/
theorem mergeDevices_default_pairs (defaultDevices : List ConfigsDevice)
    (userDevices : List Device) (userDeviceCgroup : List DeviceCgroup) (hasTty : Bool) :
    (∀ d ∈ survivors defaultDevices userDevices hasTty,
      ∀ acc : List Device × List DeviceCgroup,
        mergeStep (userPaths userDevices) hasTty acc d =
          (acc.1 ++ [defaultToDevice d], acc.2 ++ [defaultToCgroup d])) ∧
    (∀ d : ConfigsDevice,
      (defaultToDevice d).Type_ = runeToString d.Type_ ∧
      (runeToString d.Type_).length = 1 ∧
      (defaultToDevice d).Path = d.Path ∧ (defaultToDevice d).Major = d.Major ∧
      (defaultToDevice d).Minor = d.Minor ∧ (defaultToDevice d).FileMode = some d.FileMode ∧
      (defaultToDevice d).UID = some d.Uid ∧ (defaultToDevice d).GID = some d.Gid ∧
      (defaultToCgroup d).Allow = true ∧
      (defaultToCgroup d).Type_ = some (defaultToDevice d).Type_ ∧
      (defaultToCgroup d).Major = some (defaultToDevice d).Major ∧
      (defaultToCgroup d).Minor = some (defaultToDevice d).Minor ∧
      (defaultToCgroup d).Access = some d.Permissions) ∧
    (mergeDevices defaultDevices userDevices userDeviceCgroup hasTty).1.take
        (survivors defaultDevices userDevices hasTty).length =
      (survivors defaultDevices userDevices hasTty).map defaultToDevice ∧
    (mergeDevices defaultDevices userDevices userDeviceCgroup hasTty).2.take
        (survivors defaultDevices userDevices hasTty).length =
      (survivors defaultDevices userDevices hasTty).map defaultToCgroup ∧
    List.Forall₂ (fun dev rule => rule.Allow = true ∧ ruleFor dev rule)
      ((mergeDevices defaultDevices userDevices userDeviceCgroup hasTty).1.take
        (survivors defaultDevices userDevices hasTty).length)
      ((mergeDevices defaultDevices userDevices userDeviceCgroup hasTty).2.take
        (survivors defaultDevices userDevices hasTty).length) := by
  have h1 : (mergeDevices defaultDevices userDevices userDeviceCgroup hasTty).1.take
        (survivors defaultDevices userDevices hasTty).length =
      (survivors defaultDevices userDevices hasTty).map defaultToDevice := by
    rw [mergeDevices_eq]
    simp [List.take_append_eq_append_take]
  have h2 : (mergeDevices defaultDevices userDevices userDeviceCgroup hasTty).2.take
        (survivors defaultDevices userDevices hasTty).length =
      (survivors defaultDevices userDevices hasTty).map defaultToCgroup := by
    rw [mergeDevices_eq]
    simp [List.take_append_eq_append_take]
  refine ⟨fun d hd acc => mergeStep_of_survivor _ _ _ d hd acc,
    fun d => ⟨rfl, runeToString_length _, rfl, rfl, rfl, rfl, rfl, rfl, rfl, rfl, rfl, rfl, rfl⟩,
    h1, h2, ?_⟩
  rw [h1, h2]
  generalize survivors defaultDevices userDevices hasTty = S
  induction S with
  | nil => exact List.Forall₂.nil
  | cons d S ih => exact List.Forall₂.cons ⟨rfl, rfl, rfl, rfl⟩ ih

theorem mergeDevices_default_pairs_witness :
    mergeStep (userPaths [exUserNull]) true ([], []) exTty =
      ([{ Type_ := "c", Path := "/dev/tty", Major := 5, Minor := 0, FileMode := some 0o666,
          UID := some 0, GID := some 0 }],
       [{ Allow := true, Type_ := some "c", Major := some 5, Minor := some 0,
          Access := some "rwm" }]) :=
  (mergeDevices_default_pairs [exNull, exTty] [exUserNull] [exUserNullRule] true).1
    exTty (by decide) ([], [])

/-- C18: if every user device has a user rule with its type, major and minor, then
every returned device has a returned rule with its type, major and minor; a
default at the path of a user device adds neither a device nor a rule. -/
theorem mergeDevices_rules_cover_devices (defaultDevices : List ConfigsDevice)
    (userDevices : List Device) (userDeviceCgroup : List DeviceCgroup) (hasTty : Bool)
    (hU : ∀ d ∈ userDevices, ∃ r ∈ userDeviceCgroup, ruleFor d r) :
    (∀ d ∈ (mergeDevices defaultDevices userDevices userDeviceCgroup hasTty).1,
      ∃ r ∈ (mergeDevices defaultDevices userDevices userDeviceCgroup hasTty).2,
        ruleFor d r) ∧
    (∀ c ∈ defaultDevices, c.Path ∈ userDevices.map Device.Path →
      c ∉ survivors defaultDevices userDevices hasTty) := by
  constructor
  · intro d hd
    rw [mergeDevices_eq] at hd ⊢
    rcases List.mem_append.1 hd with hdef | huser
    · obtain ⟨c, hc, rfl⟩ := List.mem_map.1 hdef
      exact ⟨defaultToCgroup c, List.mem_append_left _ (List.mem_map.2 ⟨c, hc, rfl⟩),
        rfl, rfl, rfl⟩
    · obtain ⟨r, hr, hrule⟩ := hU d huser
      exact ⟨r, List.mem_append_right _ hr, hrule⟩
  · intro c _ hp hs
    exact survivors_path_not_user _ _ _ c hs hp

theorem mergeDevices_rules_cover_devices_witness :
    (mergeDevices [exNull, exTty] [exUserNull] [exUserNullRule] false).1 = [exUserNull] ∧
    ∃ r ∈ (mergeDevices [exNull, exTty] [exUserNull] [exUserNullRule] false).2,
      ruleFor exUserNull r :=
  ⟨by decide,
   (mergeDevices_rules_cover_devices [exNull, exTty] [exUserNull] [exUserNullRule] false
    (by
      intro d hd
      rw [List.mem_singleton] at hd
      subst hd
      exact ⟨exUserNullRule, List.mem_singleton.2 rfl, rfl, rfl, rfl⟩)).1
    exUserNull (by decide)⟩

/-- C19: if the default devices have pairwise distinct paths and the user devices
have pairwise distinct paths, the returned devices have pairwise distinct paths,
for either value of `hasTty`. -/
theorem mergeDevices_paths_distinct (defaultDevices : List ConfigsDevice)
    (userDevices : List Device) (userDeviceCgroup : List DeviceCgroup) (hasTty : Bool)
    (hD : (defaultDevices.map ConfigsDevice.Path).Nodup)
    (hU : (userDevices.map Device.Path).Nodup) :
    ((mergeDevices defaultDevices userDevices userDeviceCgroup hasTty).1.map
      Device.Path).Nodup := by
  rw [mergeDevices_eq]
  have hmap : ((survivors defaultDevices userDevices hasTty).map defaultToDevice).map
      Device.Path = (survivors defaultDevices userDevices hasTty).map ConfigsDevice.Path := by
    rw [List.map_map]
    rfl
  have hsub : List.Sublist (survivors defaultDevices userDevices hasTty) defaultDevices :=
    List.filter_sublist _
  rw [List.map_append, hmap, List.nodup_append]
  refine ⟨(hsub.map ConfigsDevice.Path).nodup hD, hU, ?_⟩
  intro p hp hpu
  obtain ⟨c, hc, rfl⟩ := List.mem_map.1 hp
  exact survivors_path_not_user _ _ _ c hc hpu

theorem mergeDevices_paths_distinct_witness :
    ((mergeDevices [exNull, exTty] [exUserNull] [exUserNullRule] true).1.map
      Device.Path).Nodup ∧
    (mergeDevices [exNull, exTty] [exUserNull] [exUserNullRule] true).1.map Device.Path =
      ["/dev/tty", "/dev/null"] :=
  ⟨mergeDevices_paths_distinct [exNull, exTty] [exUserNull] [exUserNullRule] true
      (by decide) (by decide),
   by decide⟩

/-! ## The walk and the directory tree -/

theorem below_iff (fs : FS) (dir p : String) :
    Below fs dir p ↔ ∃ names, fs.readDirNames dir = .ok names ∧ ∃ name ∈ names,
      p = filepath.Join dir name ∨ ∃ fi, fs.lstat (filepath.Join dir name) = .ok fi ∧
        fi.IsDir = true ∧ Below fs (filepath.Join dir name) p := by
  constructor
  · intro h
    cases h with
    | entry _ name names h hn => exact ⟨names, h, name, hn, Or.inl rfl⟩
    | deeper _ name names fi _ h hn hl hd hp =>
      exact ⟨names, h, name, hn, Or.inr ⟨fi, hl, hd, hp⟩⟩
  · rintro ⟨names, h, name, hn, rfl | ⟨fi, hl, hd, hp⟩⟩
    · exact Below.entry dir name names h hn
    · exact Below.deeper dir name names fi p h hn hl hd hp

theorem walkNames_mem (fs : FS) (n : Nat) (path : String)
    (ih : ∀ q fi v, filepath.walk fs n q fi = some v →
      ∀ p, p ∈ v ↔ p = q ∨ (fi.IsDir = true ∧ Below fs q p))
    (names : List String) (vs : List String)
    (h : filepath.walkNames fs (filepath.walk fs n) path names = some vs) (p : String) :
    p ∈ vs ↔ ∃ name ∈ names,
      p = filepath.Join path name ∨ ∃ fi, fs.lstat (filepath.Join path name) = .ok fi ∧
        fi.IsDir = true ∧ Below fs (filepath.Join path name) p := by
  induction names generalizing vs with
  | nil =>
    simp only [filepath.walkNames, Option.some.injEq] at h
    subst h
    simp
  | cons nm names ih' =>
    simp only [filepath.walkNames] at h
    simp only [List.mem_cons, or_and_right, exists_or, exists_eq_left]
    cases hl : fs.lstat (filepath.Join path nm) with
    | error e =>
      simp only [hl] at h
      cases ht : filepath.walkNames fs (filepath.walk fs n) path names with
      | none => simp [ht] at h
      | some ws =>
        simp only [ht, Option.some.injEq] at h
        subst h
        simp only [List.singleton_append, List.mem_cons, ih' ws ht]
        simp
    | ok fi =>
      simp only [hl] at h
      cases hh : filepath.walk fs n (filepath.Join path nm) fi with
      | none => simp [hh] at h
      | some v =>
        cases ht : filepath.walkNames fs (filepath.walk fs n) path names with
        | none => simp [hh, ht] at h
        | some ws =>
          simp only [hh, ht, Option.some.injEq] at h
          subst h
          simp only [List.mem_append, ih _ _ _ hh, ih' ws ht]
          simp

/-- The entries visited by `walk` are its root and, if the root is a directory,
the entries of the tree below it. -/
theorem walk_mem (fs : FS) (n : Nat) (path : String) (info : FileInfo) (v : List String)
    (h : filepath.walk fs n path info = some v) (p : String) :
    p ∈ v ↔ p = path ∨ (info.IsDir = true ∧ Below fs path p) := by
  induction n generalizing path info v p with
  | zero => simp [filepath.walk] at h
  | succ n ih =>
    rw [filepath.walk] at h
    by_cases hd : info.IsDir = false
    · simp only [hd, if_true, Option.some.injEq] at h
      subst h
      simp [hd]
    · have hd' : info.IsDir = true := by simpa using hd
      rw [hd', if_neg (by decide)] at h
      cases hn : fs.readDirNames path with
      | error e =>
        simp only [hn, Option.some.injEq] at h
        subst h
        rw [below_iff]
        simp [hn]
      | ok names =>
        simp only [hn] at h
        cases hw : filepath.walkNames fs (filepath.walk fs n) path names with
        | none => simp [hw] at h
        | some vs =>
          simp only [hw, Option.some.injEq] at h
          subst h
          rw [List.mem_cons, walkNames_mem fs n path (fun q fi v hv p => ih q fi v hv p)
            names vs hw p, below_iff fs path p]
          simp [hn, hd']

/-- The entries visited by `filepath.Walk` from a root that `lstat` can read. -/
theorem Walk_mem (fs : FS) (n : Nat) (root : String) (info : FileInfo) (v : List String)
    (hl : fs.lstat root = .ok info) (h : filepath.Walk fs n root = some v) (p : String) :
    p ∈ v ↔ p = root ∨ (info.IsDir = true ∧ Below fs root p) := by
  simp only [filepath.Walk, os_Lstat_ok fs root info hl] at h
  exact walk_mem fs n root info v h p

/-- For a directory that is not a symbolic link (`os.Stat` and `os.Lstat` agree on
it) with a finite tree, `getDevicesFromPath` fails exactly when no entry of the
tree below `PathOnHost` is a device node. -/
theorem getDevicesFromPath_real_directory (fs : FS) (m : DeviceMapping) (info : FileInfo)
    (hl : fs.lstat m.PathOnHost = .ok info) (hs : fs.stat m.PathOnHost = .ok info)
    (hd : info.IsDir = true) (hnd : info.mode &&& ModeDevice = 0)
    (hfin : FiniteFrom fs m.PathOnHost) :
    ∃ fuel₀, ∀ fuel, fuel₀ ≤ fuel → ∃ devs dc err,
      getDevicesFromPath fs fuel m = some (devs, dc, err) ∧
      (err ≠ none ↔ ∀ p, Below fs m.PathOnHost p → isDeviceNode fs p = false) := by
  obtain ⟨n, visited, h⟩ := getDevicesFromPath_error_iff_no_device fs m hfin
  refine ⟨n, fun fuel hfuel => ?_⟩
  obtain ⟨hW, devs, dc, err, hres, herr, hnil, -, -⟩ := h fuel hfuel
  refine ⟨devs, dc, err, hres, ?_⟩
  have hroot : isDeviceNode fs m.PathOnHost = false := by
    simp [isDeviceNode, hl, hnd]
  rw [herr, hnil]
  constructor
  · rintro ⟨-, hall⟩ p hp
    exact hall ⟨info, info, hl, hnd, hs, hd⟩ p
      ((Walk_mem fs fuel m.PathOnHost info visited hl hW p).2 (Or.inr ⟨hd, hp⟩))
  · intro hall
    refine ⟨hroot, fun _ p hp => ?_⟩
    rcases (Walk_mem fs fuel m.PathOnHost info visited hl hW p).1 hp with rfl | ⟨-, hb⟩
    · exact hroot
    · exact hall p hb

theorem getDevicesFromPath_real_directory_witness :
    ∃ fuel₀, ∀ fuel, fuel₀ ≤ fuel → ∃ devs dc err,
      getDevicesFromPath exLinkFS fuel exRealMapping = some (devs, dc, err) ∧
      (err ≠ none ↔ ∀ p, Below exLinkFS "/x/real" p → isDeviceNode exLinkFS p = false) :=
  getDevicesFromPath_real_directory exLinkFS exRealMapping exDirInfo rfl rfl (by decide)
    (by decide) (finiteFrom_of_Walk exLinkFS 2 "/x/real" ["/x/real", "/x/real/a", "/x/real/b"]
      (by decide))

/-! ## The symbolic link to a directory -/

/-- C6, at the failing input: `/x/lnkdir` is a symbolic link to a directory that
holds two device nodes. Its inspection fails with `ErrNotADevice`, `os.Stat`
reports a directory, and the tree below it holds the device nodes `/x/lnkdir/a`
and `/x/lnkdir/b`; but `filepath.Walk`, which does not follow the link, visits
only `/x/lnkdir`, and `getDevicesFromPath` returns no device and the mapping
error, where the same directory mapped by its own path gives both devices. -/
theorem getDevicesFromPath_symlinked_directory :
    deviceFromPath exLinkFS "/x/lnkdir" "rw" = .error .errNotADevice ∧
    os.Stat exLinkFS "/x/lnkdir" = .ok exDirInfo ∧ exDirInfo.IsDir = true ∧
    Below exLinkFS "/x/lnkdir" "/x/lnkdir/a" ∧ isDeviceNode exLinkFS "/x/lnkdir/a" = true ∧
    Below exLinkFS "/x/lnkdir" "/x/lnkdir/b" ∧ isDeviceNode exLinkFS "/x/lnkdir/b" = true ∧
    (∀ fuel, filepath.Walk exLinkFS (fuel + 1) "/x/lnkdir" = some ["/x/lnkdir"]) ∧
    (∀ fuel, getDevicesFromPath exLinkFS (fuel + 1) exLinkMapping =
      some ([], [], some (.errorf
        "Gathering device information while adding custom device (/x/lnkdir) failed: not a device node"))) ∧
    (getDevicesFromPath exLinkFS 2 exRealMapping).map
        (fun r => (r.1.map Device.Path, r.2.1.length, r.2.2)) =
      some (["/dev/in/a", "/dev/in/b"], 2, none) := by
  have hW : ∀ fuel, filepath.Walk exLinkFS (fuel + 1) "/x/lnkdir" = some ["/x/lnkdir"] :=
    fun fuel => rfl
  refine ⟨rfl, rfl, by decide, ?_, by decide, ?_, by decide, hW, ?_, by decide⟩
  · exact Below.entry "/x/lnkdir" "a" ["a", "b"] rfl (by decide)
  · exact Below.entry "/x/lnkdir" "b" ["a", "b"] rfl (by decide)
  · intro fuel
    rw [getDevicesFromPath_of_walk exLinkFS (fuel + 1) exLinkMapping exDirInfo ["/x/lnkdir"]
      rfl rfl (by decide) (hW fuel)]
    rfl

/-- C8, at the failing input: for the symbolic link `/x/lnkdir` to a directory,
`os.Stat` reports a directory and an entry under the path is a device node, yet
`getDevicesFromPath` returns an error with both lists empty. -/
theorem getDevicesFromPath_fails_on_symlinked_devices :
    ∃ devs dc err, getDevicesFromPath exLinkFS 1 exLinkMapping = some (devs, dc, err) ∧
      err ≠ none ∧ devs = [] ∧ dc = [] ∧
      (∃ src, exLinkFS.stat "/x/lnkdir" = .ok src ∧ src.IsDir = true) ∧
      (∃ p, Below exLinkFS "/x/lnkdir" p ∧ isDeviceNode exLinkFS p = true) :=
  ⟨[], [], _, rfl, by simp, rfl, rfl, ⟨exDirInfo, rfl, by decide⟩,
    ⟨"/x/lnkdir/a", Below.entry "/x/lnkdir" "a" ["a", "b"] rfl (by decide), by decide⟩⟩

end Parse
